import Mathlib

/-
Shallow embedding of the bifocals view-rendering coordinator.

The repository carries two near-duplicate revisions of one module.
Revision A is the first source file, revision B the second.  The view
tree is embedded as an arena: a system holds a list of view nodes
addressed by their index.  JavaScript objects used as string-keyed maps
become association lists; the child fake-response closure state (its
buffer and key) is stored on the child node; process.nextTick scheduling
becomes an explicit queue of node ids; renderer invocations
(buildRenderer().render(path)) are recorded in a log.  The renderer
registry is an external collaborator and is modelled as always
succeeding; lookups of missing node ids are modelled as no-ops, which
matches the fact that no operation of the source ever produces such an
access.
-/

namespace Bifocals

/-- The six render states of the module-level RENDER_STATES table. -/
inductive RS where
  | notCalled
  | requested
  | started
  | complete
  | failed
  | canceled
deriving DecidableEq

/-- The response object of a view: the real ServerResponse of the root
(whose mutable fields live on the system), the fake response installed
by child creation (holding its buffer and the captured key), or null. -/
inductive Sink where
  | real
  | fake (buffer : String) (key : String)
  | nil
deriving DecidableEq

/-- One Bifocals view object.  Children are the _child_views mapping,
stored as an association list from key to the node id of the child. -/
structure View where
  render_state : RS
  template : Option String
  dir : String
  content_type : String
  data : List (String × String) := []
  children : List (String × Nat) := []
  parent : Option Nat := none
  root : Nat := 0
  sink : Sink := Sink.nil
deriving DecidableEq

/-- Observable state of the real ServerResponse. -/
structure Resp where
  statusCode : Option Nat := none
  headers : List (String × String) := []
  ended : Bool := false
deriving DecidableEq

/-- A system: the arena of view nodes (ids are list indices), the real
response, the process.nextTick queue of parent ids whose render was
scheduled by a child completion, and the log of renderer invocations
(node id and the template path handed to the renderer). -/
structure Sys where
  nodes : List View
  resp : Resp := {}
  ticks : List Nat := []
  log : List (Nat × String) := []
deriving DecidableEq

/-- Assignment into a JavaScript object used as a map: replace the
binding if the key is present (keeping its position), else append. -/
def assocSet {α : Type} : List (String × α) → String → α → List (String × α)
  | [], k, v => [(k, v)]
  | (k₁, v₁) :: rest, k, v =>
      if k₁ = k then (k, v) :: rest else (k₁, v₁) :: assocSet rest k v

/-- Lookup in a JavaScript object used as a map. -/
def assocGet {α : Type} : List (String × α) → String → Option α
  | [], _ => none
  | (k₁, v₁) :: rest, k => if k₁ = k then some v₁ else assocGet rest k

/-- JavaScript truthiness of a string-or-undefined value: undefined and
the empty string are falsy. -/
def truthy : Option String → Bool
  | some s => s ≠ ""
  | none => false

/-- JavaScript string coercion of a string-or-undefined value, as it
occurs in the concatenation this.dir + template. -/
def optStr : Option String → String
  | some s => s
  | none => "undefined"

def Sys.get (s : Sys) (id : Nat) : Option View :=
  s.nodes[id]?

/-- Mutate one node of the arena in place (a no-op when the id is not
allocated, which never happens in the scenarios of the claims). -/
def Sys.modify (s : Sys) (id : Nat) (f : View → View) : Sys :=
  match s.get id with
  | some v => { s with nodes := s.nodes.set id (f v) }
  | none => s

/-- Bifocals.prototype.isRendered: the view state is RENDER_COMPLETE.
A dangling child id (impossible in the source, where the mapping holds
the objects themselves) reads as not rendered. -/
def isRendered (s : Sys) (id : Nat) : Bool :=
  match s.get id with
  | some v => v.render_state == RS.complete
  | none => false

/-- Bifocals.prototype.canRender: the state is RENDER_REQUESTED and
every entry of the _child_views mapping isRendered. -/
def canRender (s : Sys) (id : Nat) : Bool :=
  match s.get id with
  | some v =>
      v.render_state == RS.requested &&
        v.children.all (fun kc => isRendered s kc.2)
  | none => false

/-- Bifocals.prototype.set: write one key of the _data mapping. -/
def setData (s : Sys) (id : Nat) (k : String) (val : String) : Sys :=
  s.modify id (fun w => { w with data := assocSet w.data k val })

/-- The full cancellation of one node, as it stands after cancelRender
has run on it: state RENDER_CANCELED and an emptied _child_views. -/
def cancelAll (v : View) : View :=
  { v with render_state := RS.canceled, children := [] }

/-- Bifocals.prototype.cancelRender, with explicit recursion fuel: set
the state to RENDER_CANCELED, recursively cancel every child, then
clear _child_views.  The fuel only bounds the recursion depth; for a
well-formed arena (child ids above parent ids) a fuel of the arena size
always suffices. -/
def cancelRenderF : Nat → Sys → Nat → Sys
  | 0, s, _ => s
  | fuel + 1, s, id =>
      match s.get id with
      | none => s
      | some v =>
          let s1 := s.modify id (fun w => { w with render_state := RS.canceled })
          let s2 := v.children.foldl (fun acc kc => cancelRenderF fuel acc kc.2) s1
          s2.modify id (fun w => { w with children := [] })

/-- Bifocals.prototype.cancelRender at adequate fuel. -/
def cancelRender (s : Sys) (id : Nat) : Sys :=
  cancelRenderF s.nodes.length s id

/-- Bifocals.prototype.render with force falsy: a silent no-op on a
canceled view; otherwise mark RENDER_REQUESTED, and either perform the
render (mark RENDER_STARTED, prefer the pre-set template over the
argument, invoke buildRenderer().render(this.dir + template)) when the
gate holds, or remember the argument template when none is set yet. -/
def renderNF (s : Sys) (id : Nat) (template : Option String) : Sys :=
  match s.get id with
  | none => s
  | some v =>
      if v.render_state = RS.canceled then s
      else
        let s1 := s.modify id (fun w => { w with render_state := RS.requested })
        if canRender s1 id then
          let s2 := s1.modify id (fun w => { w with render_state := RS.started })
          let tmpl := if truthy v.template then v.template else template
          { s2 with log := s2.log ++ [(id, v.dir ++ optStr tmpl)] }
        else
          if truthy v.template then s1
          else s1.modify id (fun w => { w with template := template })

/-- Bifocals.prototype.render.  The force branch cancels the subtree,
re-marks RENDER_REQUESTED, overwrites the template and re-enters the
forceless branch. -/
def render (s : Sys) (id : Nat) (template : Option String) (force : Bool) : Sys :=
  if force then
    let s1 := cancelRender s id
    let s2 := s1.modify id (fun w => { w with render_state := RS.requested })
    let s3 := s2.modify id (fun w => { w with template := template })
    renderNF s3 id template
  else
    renderNF s id template

/-- The end callback installed by buildRenderer: the renderer finished,
the view becomes RENDER_COMPLETE. -/
def rendererEnd (s : Sys) (id : Nat) : Sys :=
  s.modify id (fun w => { w with render_state := RS.complete })

/-- The error callback installed by buildRenderer: the renderer failed,
the view becomes RENDER_FAILED (the view error handler, an external
function, is then invoked and is not tracked here). -/
def rendererError (s : Sys) (id : Nat) : Sys :=
  s.modify id (fun w => { w with render_state := RS.failed })

/-- The write method of the fake response installed by child creation:
append the chunk to the buffer. -/
def childWrite (s : Sys) (cid : Nat) (chunk : String) : Sys :=
  s.modify cid (fun w =>
    match w.sink with
    | Sink.fake b k => { w with sink := Sink.fake (b ++ chunk) k }
    | _ => w)

/-- The end method of the fake response installed by child creation:
flag the child RENDER_COMPLETE, splice the buffer into the parent data
under the captured key, and when the parent gate now holds, schedule
the parent render on the next tick. -/
def fakeResponseEnd (s : Sys) (cid : Nat) : Sys :=
  match s.get cid with
  | none => s
  | some v =>
      match v.sink, v.parent with
      | Sink.fake buf key, some pid =>
          let s1 := s.modify cid (fun w => { w with render_state := RS.complete })
          let s2 := setData s1 pid key buf
          if canRender s2 pid then { s2 with ticks := s2.ticks ++ [pid] }
          else s2
      | _, _ => s

/-- Run one scheduled next-tick task: pop the first scheduled parent id
and call its render() with no arguments. -/
def runTick (s : Sys) : Sys :=
  match s.ticks with
  | [] => s
  | pid :: rest => renderNF { s with ticks := rest } pid none

/-- Bifocals.prototype.child: allocate a child view inheriting
content_type, dir and root, wire its parent pointer, set its template
when the argument is truthy, install the fake response, and register
it in _child_views under the key. -/
def child (s : Sys) (pid : Nat) (key : String) (template : Option String) : Sys :=
  match s.get pid with
  | none => s
  | some v =>
      let nid := s.nodes.length
      let cv : View :=
        { render_state := RS.notCalled
          template := if truthy template then template else none
          dir := v.dir
          content_type := v.content_type
          data := []
          children := []
          parent := some pid
          root := v.root
          sink := Sink.fake "" key }
      let s1 : Sys := { s with nodes := s.nodes ++ [cv] }
      s1.modify pid (fun w => { w with children := assocSet w.children key nid })

/-- Bifocals.prototype.setStatusCode: assign statusCode on the response
of the root view.  On a fake response this only adds an untracked
property of the plain object, hence no system change. -/
def setStatusCode (s : Sys) (id : Nat) (code : Nat) : Sys :=
  match s.get id with
  | none => s
  | some v =>
      match s.get v.root with
      | some r =>
          match r.sink with
          | Sink.real => { s with resp := { s.resp with statusCode := some code } }
          | _ => s
      | none => s

/-- Calling end() on the response of a view: ends the real response, or
runs the fake-response end when the view holds one. -/
def sinkEnd (s : Sys) (id : Nat) : Sys :=
  match s.get id with
  | none => s
  | some v =>
      match v.sink with
      | Sink.real => { s with resp := { s.resp with ended := true } }
      | Sink.fake _ _ => fakeResponseEnd s id
      | Sink.nil => s

/-- Revision A statusNotFound: status 404 on the root response, cancel
the root subtree, then either force-render the given template on the
root or (for a non-string argument) cancel again and end the root
response. -/
def statusNotFoundA (s : Sys) (id : Nat) (template : Option String) : Sys :=
  match s.get id with
  | none => s
  | some v =>
      let s1 := setStatusCode s id 404
      let s2 := cancelRender s1 v.root
      match template with
      | some t => render s2 v.root (some t) true
      | none => sinkEnd (cancelRender s2 v.root) v.root

/-- Revision B statusNotFound: cancel the root subtree, set statusCode
404 directly on the root response, and end it.  The template argument
is ignored. -/
def statusNotFoundB (s : Sys) (id : Nat) (_template : Option String) : Sys :=
  match s.get id with
  | none => s
  | some v =>
      let s1 := cancelRender s v.root
      let s2 :=
        match s1.get v.root with
        | some r =>
            match r.sink with
            | Sink.real => { s1 with resp := { s1.resp with statusCode := some 404 } }
            | _ => s1
        | none => s1
      sinkEnd s2 v.root

/-- Revision B isRendered (view_isRendered). -/
def isRenderedB (s : Sys) (id : Nat) : Bool :=
  match s.get id with
  | some v => v.render_state == RS.complete
  | none => false

/-- Revision B canRender (view_canRender). -/
def canRenderB (s : Sys) (id : Nat) : Bool :=
  match s.get id with
  | some v =>
      v.render_state == RS.requested &&
        v.children.all (fun kc => isRenderedB s kc.2)
  | none => false

/-- Revision B cancelRender body, with the same fuel convention. -/
def cancelRenderFB : Nat → Sys → Nat → Sys
  | 0, s, _ => s
  | fuel + 1, s, id =>
      match s.get id with
      | none => s
      | some v =>
          let s1 := s.modify id (fun w => { w with render_state := RS.canceled })
          let s2 := v.children.foldl (fun acc kc => cancelRenderFB fuel acc kc.2) s1
          s2.modify id (fun w => { w with children := [] })

/-- Revision B cancelRender at adequate fuel. -/
def cancelRenderB (s : Sys) (id : Nat) : Sys :=
  cancelRenderFB s.nodes.length s id

/-- Revision B render with force falsy (view_render); setTemplate is a
plain assignment of _template. -/
def renderNFB (s : Sys) (id : Nat) (template : Option String) : Sys :=
  match s.get id with
  | none => s
  | some v =>
      if v.render_state = RS.canceled then s
      else
        let s1 := s.modify id (fun w => { w with render_state := RS.requested })
        if canRenderB s1 id then
          let s2 := s1.modify id (fun w => { w with render_state := RS.started })
          let tmpl := if truthy v.template then v.template else template
          { s2 with log := s2.log ++ [(id, v.dir ++ optStr tmpl)] }
        else
          if truthy v.template then s1
          else s1.modify id (fun w => { w with template := template })

/-- Revision B render (view_render). -/
def renderB (s : Sys) (id : Nat) (template : Option String) (force : Bool) : Sys :=
  if force then
    let s1 := cancelRenderB s id
    let s2 := s1.modify id (fun w => { w with render_state := RS.requested })
    let s3 := s2.modify id (fun w => { w with template := template })
    renderNFB s3 id template
  else
    renderNFB s id template

/-- Revision B fake-response end (installed by view_child through
setResponse). -/
def fakeResponseEndB (s : Sys) (cid : Nat) : Sys :=
  match s.get cid with
  | none => s
  | some v =>
      match v.sink, v.parent with
      | Sink.fake buf key, some pid =>
          let s1 := s.modify cid (fun w => { w with render_state := RS.complete })
          let s2 := setData s1 pid key buf
          if canRenderB s2 pid then { s2 with ticks := s2.ticks ++ [pid] }
          else s2
      | _, _ => s

/-
Renderer base object.  The JavaScript mutates function-valued slots;
the model tracks the same information first-order.  errH and endH hold
the handler registered into the _error and _end slots (handlers are
identified by a number).  When the default _error or _end fires before
a handler is registered, the source overwrites the error or end
registration method itself; pendingErr and pendingEnd record that
overwritten state together with the pending error.  tasks is the
process.nextTick queue of deferred handler invocations; invoked is the
log of handler invocations that have run, each an invocation of a
handler with an optional error argument.
-/

/-- State of one Renderer instance. -/
structure Rend where
  pendingErr : Option String := none
  pendingEnd : Bool := false
  errH : Option Nat := none
  endH : Option Nat := none
  tasks : List (Nat × Option String) := []
  invoked : List (Nat × Option String) := []
deriving DecidableEq

/-- The renderer implementation signals failure: this._error(err).
With a registered handler the handler runs at once; otherwise the
default handler overwrites the error registration method, recording
the pending error. -/
def fireError (r : Rend) (err : String) : Rend :=
  match r.errH with
  | some fn => { r with invoked := r.invoked ++ [(fn, some err)] }
  | none => { r with pendingErr := some err }

/-- The renderer implementation signals completion: this._end(). -/
def fireEnd (r : Rend) : Rend :=
  match r.endH with
  | some fn => { r with invoked := r.invoked ++ [(fn, none)] }
  | none => { r with pendingEnd := true }

/-- Revision A error(fn): with a pending error the overwritten
registration method schedules fn(err) on the next tick; otherwise fn
is stored into the _error slot. -/
def errorRegA (r : Rend) (fn : Nat) : Rend :=
  match r.pendingErr with
  | some err => { r with tasks := r.tasks ++ [(fn, some err)] }
  | none => { r with errH := some fn }

/-- Revision A end(fn). -/
def endRegA (r : Rend) (fn : Nat) : Rend :=
  if r.pendingEnd then { r with tasks := r.tasks ++ [(fn, none)] }
  else { r with endH := some fn }

/-- Run the pending next-tick tasks of a renderer. -/
def runTicks (r : Rend) : Rend :=
  { r with tasks := [], invoked := r.invoked ++ r.tasks }

/-- Revision B error(fn): with a pending error the overwritten
registration method invokes fn(err) synchronously. -/
def errorRegB (r : Rend) (fn : Nat) : Rend :=
  match r.pendingErr with
  | some err => { r with invoked := r.invoked ++ [(fn, some err)] }
  | none => { r with errH := some fn }

/-- Revision B end(fn). -/
def endRegB (r : Rend) (fn : Nat) : Rend :=
  if r.pendingEnd then { r with invoked := r.invoked ++ [(fn, none)] }
  else { r with endH := some fn }

/-- Well-formedness of an arena: every edge of the _child_views mapping
goes to a strictly larger node id.  Arenas built by the child operation
satisfy this, since a child is always allocated after its parent. -/
def Wf (s : Sys) : Bool :=
  (List.range s.nodes.length).all (fun i =>
    match s.nodes[i]? with
    | some v => v.children.all (fun kc => Nat.blt i kc.2)
    | none => true)

/-- Reachability along _child_views edges, computed on a fixed system:
the node itself, and anything reachable through a child entry. -/
inductive Reach (s : Sys) : Nat → Nat → Prop where
  | refl (i : Nat) : Reach s i i
  | step {i : Nat} (j : Nat) (v : View) (kc : String × Nat) :
      Reach s i j → s.get j = some v → kc ∈ v.children → Reach s i kc.2

/-- The arena well-formedness as a proposition. -/
def WfP (s : Sys) : Prop :=
  ∀ i v, s.get i = some v → ∀ kc ∈ v.children, i < kc.2

/-- The child-cancellation fold inside cancelRender. -/
def foldCancel (f : Nat) (cs : List (String × Nat)) (acc : Sys) : Sys :=
  cs.foldl (fun t kc => cancelRenderF f t kc.2) acc

/-- Everything the cancel analysis needs to know about one run of
cancelRenderF at sufficient fuel. -/
structure CancelConcl (f : Nat) (s : Sys) (id : Nat) : Prop where
  len : (cancelRenderF f s id).nodes.length = s.nodes.length
  resp : (cancelRenderF f s id).resp = s.resp
  ticks : (cancelRenderF f s id).ticks = s.ticks
  logEq : (cancelRenderF f s id).log = s.log
  lo : ∀ j, j < id → (cancelRenderF f s id).get j = s.get j
  getCases : ∀ j, (cancelRenderF f s id).get j = s.get j ∨
      (cancelRenderF f s id).get j = (s.get j).map cancelAll
  noneId : s.get id = none → cancelRenderF f s id = s
  atId : ∀ v, s.get id = some v → (cancelRenderF f s id).get id = some (cancelAll v)
  childrenOf : ∀ j v, s.get j = some v →
      (cancelRenderF f s id).get j = some (cancelAll v) →
      ∀ kc ∈ v.children, (cancelRenderF f s id).get kc.2 = (s.get kc.2).map cancelAll

/-- The corresponding facts for the child fold, with lb a lower bound
on the processed ids (nothing below lb is touched). -/
structure FoldConcl (f : Nat) (cs : List (String × Nat)) (acc : Sys) (lb : Nat) : Prop where
  len : (foldCancel f cs acc).nodes.length = acc.nodes.length
  resp : (foldCancel f cs acc).resp = acc.resp
  ticks : (foldCancel f cs acc).ticks = acc.ticks
  logEq : (foldCancel f cs acc).log = acc.log
  lo : ∀ j, j < lb → (foldCancel f cs acc).get j = acc.get j
  getCases : ∀ j, (foldCancel f cs acc).get j = acc.get j ∨
      (foldCancel f cs acc).get j = (acc.get j).map cancelAll
  childrenOf : ∀ j v, acc.get j = some v →
      (foldCancel f cs acc).get j = some (cancelAll v) →
      ∀ kc ∈ v.children, (foldCancel f cs acc).get kc.2 = (acc.get kc.2).map cancelAll
  proc : ∀ kc ∈ cs, (foldCancel f cs acc).get kc.2 = (acc.get kc.2).map cancelAll

/-
The event model for the completion-ordering analysis: a parent view
with n child views whose renderers are in flight.  The adversary picks
an arbitrary interleaving of the child fake-response end events, the
single render call on the parent, and next-tick executions.
-/

/-- One scheduler event. -/
inductive Ev where
  | childEnd (cid : Nat)
  | prender (t : Option String)
  | tick
deriving DecidableEq

/-- Execute one event against the system. -/
def step (s : Sys) : Ev → Sys
  | Ev.childEnd c => fakeResponseEnd s c
  | Ev.prender t => render s 0 t false
  | Ev.tick => runTick s

/-- Execute a trace of events. -/
def runEvs (s : Sys) (evs : List Ev) : Sys :=
  evs.foldl step s

/-- Recognize the end event of child i. -/
def isEndOf (i : Nat) : Ev → Bool
  | Ev.childEnd c => c == i
  | _ => false

/-- Recognize the parent render event. -/
def isRenderEv : Ev → Bool
  | Ev.prender _ => true
  | _ => false

/-- Events admissible for a parent with children 1..n: child ends stay
in range, render and tick are always allowed. -/
def evOk (n : Nat) : Ev → Bool
  | Ev.childEnd c => decide (1 ≤ c) && decide (c ≤ n)
  | _ => true

/-- The parent view of the ordering scenario: node 0, with children
1..n registered under their decimal keys, attached to the real
response. -/
def c1Parent (n : Nat) : View :=
  { render_state := RS.notCalled
    template := none
    dir := ""
    content_type := "ct"
    data := []
    children := (List.range n).map (fun j => (Nat.repr (j + 1), j + 1))
    parent := none
    root := 0
    sink := Sink.real }

/-- Child i of the ordering scenario: mid-render (its renderer will
fire the fake-response end exactly once), holding buffered output. -/
def c1Child (i : Nat) (buf : String) : View :=
  { render_state := RS.started
    template := none
    dir := ""
    content_type := "ct"
    data := []
    children := []
    parent := some 0
    root := 0
    sink := Sink.fake buf (Nat.repr i) }

/-- Initial system of the ordering scenario. -/
def c1Init (n : Nat) (b : Nat → String) : Sys :=
  { nodes := c1Parent n :: (List.range n).map (fun j => c1Child (j + 1) (b (j + 1)))
    resp := {}
    ticks := []
    log := [] }

/-- Every child of the scenario parent is complete. -/
def allDone (s : Sys) (n : Nat) : Prop :=
  ∀ j, j < n → isRendered s (j + 1) = true

/-- The four reachable phases of the scenario, distinguished by the
parent state, the pending tick queue, the renderer log, and the number
of render events still to come. -/
def C1Phase (s : Sys) (n : Nat) (evs : List Ev) (pst : RS) : Prop :=
  (evs.countP isRenderEv = 1 ∧ pst = RS.notCalled ∧ s.ticks = [] ∧ s.log = []) ∨
  (evs.countP isRenderEv = 0 ∧ pst = RS.started ∧ s.ticks = [] ∧
    s.log.map Prod.fst = [0] ∧ allDone s n) ∨
  (evs.countP isRenderEv = 0 ∧ pst = RS.requested ∧ s.ticks = [] ∧ s.log = [] ∧
    ¬ allDone s n) ∨
  (evs.countP isRenderEv = 0 ∧ pst = RS.requested ∧ s.ticks = [0] ∧ s.log = [] ∧
    allDone s n)

/-- The structural frame of the ordering scenario, preserved by every
event: the arena holds the parent at node 0 with its registered
children mapping, and the children 1..n with their fake responses. -/
structure C1Frame (n : Nat) (b : Nat → String) (s : Sys) (pv : View) : Prop where
  len : s.nodes.length = n + 1
  hp : s.get 0 = some pv
  hpch : pv.children = (List.range n).map (fun j => (Nat.repr (j + 1), j + 1))
  hpsink : pv.sink = Sink.real
  hpdir : pv.dir = ""
  hppar : pv.parent = none
  hch : ∀ j, j < n → ∃ cv, s.get (j + 1) = some cv ∧ cv.parent = some 0 ∧
    cv.children = [] ∧ cv.sink = Sink.fake (b (j + 1)) (Nat.repr (j + 1)) ∧
    (cv.render_state = RS.complete ∨ cv.render_state = RS.started)

/-- The trace invariant of the ordering analysis, relating the current
system to the events still to come. -/
def C1Inv (n : Nat) (b : Nat → String) (s : Sys) (evs : List Ev) : Prop :=
  (∀ e ∈ evs, evOk n e = true) ∧
  (∀ i, i < n → evs.countP (isEndOf (i + 1)) =
    (if isRendered s (i + 1) then 0 else 1)) ∧
  (∃ pv, C1Frame n b s pv ∧ C1Phase s n evs pv.render_state)

/-
Concrete example systems used by the witnesses and counterexamples.
-/

/-- Helper for building concrete example views tersely. -/
def mkView (st : RS) (tm : Option String) (dt : List (String × String))
    (ch : List (String × Nat)) (pr : Option Nat) (sk : Sink) : View :=
  { render_state := st
    template := tm
    dir := "d"
    content_type := "ct"
    data := dt
    children := ch
    parent := pr
    root := 0
    sink := sk }

/-- A single already-complete childless root view. -/
def exDone : Sys :=
  { nodes := [mkView RS.complete (some "t") [] [] none Sink.real] }

/-- A single cancelled childless root view. -/
def exCanceled : Sys :=
  { nodes := [mkView RS.canceled none [("k", "v")] [] none Sink.real] }

/-- A root with one pending child, used for the template-handling
scenarios. -/
def exPending : Sys :=
  { nodes := [mkView RS.notCalled none [] [("c", 1)] none Sink.real,
      mkView RS.started none [] [] (some 0) (Sink.fake "body" "c")] }

/-- A two-level tree: root 0 with child 1, which itself has child 2. -/
def exTree : Sys :=
  { nodes := [mkView RS.requested (some "r") [] [("a", 1)] none Sink.real,
      mkView RS.started none [] [("b", 2)] (some 0) (Sink.fake "" "a"),
      mkView RS.notCalled (some "bt") [] [] (some 1) (Sink.fake "" "b")] }

/-- A cancelled parent whose formerly registered child is still in
flight: the parent children mapping is already emptied, the child still
points at the parent. -/
def exOrphan : Sys :=
  { nodes := [mkView RS.canceled none [("old", "x")] [] none Sink.real,
      mkView RS.started none [] [] (some 0) (Sink.fake "late" "c")] }

/-
Basic lemmas about the arena primitives.
-/

theorem list_set_of_get {α : Type} (l : List α) (i : Nat) (v : α)
    (h : l[i]? = some v) : l.set i v = l := by
  induction l generalizing i with
  | nil => simp at h
  | cons x xs ih =>
      cases i with
      | zero =>
          simp at h
          simp [h]
      | succ n =>
          simp at h
          simp [List.set, ih n h]

theorem get_lt_length (s : Sys) (i : Nat) (v : View) (h : s.get i = some v) :
    i < s.nodes.length := by
  by_contra hh
  rw [Sys.get, List.getElem?_eq_none (Nat.le_of_not_lt hh)] at h
  cases h

theorem get_modify (s : Sys) (id : Nat) (f : View → View) (j : Nat) :
    (s.modify id f).get j = if j = id then (s.get id).map f else s.get j := by
  unfold Sys.modify
  cases hv : s.get id with
  | none =>
      by_cases hj : j = id
      · subst hj
        simp [hv]
      · simp [hv, hj]
  | some v =>
      by_cases hj : j = id
      · subst hj
        have hlt : j < s.nodes.length := get_lt_length s j v hv
        simp only [Sys.get] at hv ⊢
        simp [hv, List.getElem?_set_self', Function.const]
      · simp only [Sys.get] at hv ⊢
        simp [hv, hj, List.getElem?_set_ne (fun h => hj h.symm)]

theorem modify_length (s : Sys) (id : Nat) (f : View → View) :
    (s.modify id f).nodes.length = s.nodes.length := by
  unfold Sys.modify
  cases hv : s.get id <;> simp

theorem modify_resp (s : Sys) (id : Nat) (f : View → View) :
    (s.modify id f).resp = s.resp := by
  unfold Sys.modify
  cases hv : s.get id <;> simp

theorem modify_ticks (s : Sys) (id : Nat) (f : View → View) :
    (s.modify id f).ticks = s.ticks := by
  unfold Sys.modify
  cases hv : s.get id <;> simp

theorem modify_log (s : Sys) (id : Nat) (f : View → View) :
    (s.modify id f).log = s.log := by
  unfold Sys.modify
  cases hv : s.get id <;> simp

theorem modify_congr_self (s : Sys) (id : Nat) (f : View → View) (v : View)
    (hv : s.get id = some v) (hf : f v = v) : s.modify id f = s := by
  unfold Sys.modify
  rw [hv]
  show ({ s with nodes := s.nodes.set id (f v) } : Sys) = s
  rw [hf, list_set_of_get s.nodes id v hv]

theorem cancelAll_idem (v : View) : cancelAll (cancelAll v) = cancelAll v := rfl

theorem cancelAll_map_idem (o : Option View) :
    (o.map cancelAll).map cancelAll = o.map cancelAll := by
  cases o <;> simp [cancelAll_idem]

theorem cancelAll_state_irrel (v : View) (st : RS) :
    cancelAll { v with render_state := st } = cancelAll v := rfl

theorem isRendered_eq (s : Sys) (id : Nat) (v : View) (hv : s.get id = some v) :
    isRendered s id = (v.render_state == RS.complete) := by
  unfold isRendered
  rw [hv]

theorem canRender_eq (s : Sys) (id : Nat) (v : View) (hv : s.get id = some v) :
    canRender s id =
      (v.render_state == RS.requested &&
        v.children.all (fun kc => isRendered s kc.2)) := by
  unfold canRender
  rw [hv]

theorem wf_iff (s : Sys) :
    Wf s = true ↔ ∀ i v, s.get i = some v → ∀ kc ∈ v.children, i < kc.2 := by
  unfold Wf
  rw [List.all_eq_true]
  constructor
  · intro h i v hv kc hkc
    have hi : i < s.nodes.length := get_lt_length s i v hv
    have h2 := h i (List.mem_range.mpr hi)
    rw [Sys.get] at hv
    rw [hv, List.all_eq_true] at h2
    have := h2 kc hkc
    simpa [Nat.blt_eq] using this
  · intro h i hi
    cases hv : s.nodes[i]? with
    | none => simp
    | some v =>
        simp only [List.all_eq_true]
        intro kc hkc
        have := h i v hv kc hkc
        simpa [Nat.blt_eq] using this

/-
Specification of cancelRender.  The recursion is analysed through a
pointwise description of the resulting arena: every node is either
untouched or fully cancelled, the target node is fully cancelled, and
the original children of any fully cancelled node are fully cancelled
as well, which propagates cancellation to every reachable descendant.
-/

theorem wfP_of_wf (s : Sys) (h : Wf s = true) : WfP s :=
  (wf_iff s).mp h

theorem cancelRenderF_succ_some (f : Nat) (s : Sys) (id : Nat) (v : View)
    (hv : s.get id = some v) :
    cancelRenderF (f + 1) s id =
      (foldCancel f v.children
        (s.modify id (fun w => { w with render_state := RS.canceled }))).modify id
        (fun w => { w with children := [] }) := by
  unfold cancelRenderF foldCancel
  rw [hv]

theorem cancelRenderF_succ_none (f : Nat) (s : Sys) (id : Nat)
    (hv : s.get id = none) : cancelRenderF (f + 1) s id = s := by
  unfold cancelRenderF
  rw [hv]

theorem wf_of_pointwise (s r : Sys)
    (h : ∀ j, r.get j = s.get j ∨ r.get j = (s.get j).map cancelAll)
    (hs : WfP s) : WfP r := by
  intro i v hv kc hkc
  rcases h i with h1 | h1
  · exact hs i v (h1 ▸ hv) kc hkc
  · rw [h1] at hv
    cases hw : s.get i with
    | none => rw [hw] at hv; cases hv
    | some w =>
        rw [hw] at hv
        simp only [Option.map_some'] at hv
        have hvw : v = cancelAll w := (Option.some.injEq _ _).mp hv.symm
        rw [hvw] at hkc
        simp [cancelAll] at hkc

theorem map_cancelAll_cases {o1 o2 : Option View}
    (h : o2 = o1 ∨ o2 = o1.map cancelAll) :
    o2.map cancelAll = o1.map cancelAll := by
  rcases h with h | h
  · rw [h]
  · rw [h, cancelAll_map_idem]

theorem self_childrenOf (s : Sys) :
    ∀ j v, s.get j = some v → s.get j = some (cancelAll v) →
      ∀ kc ∈ v.children, s.get kc.2 = (s.get kc.2).map cancelAll := by
  intro j v hv hr kc hkc
  rw [hv] at hr
  have hvv : v = cancelAll v := (Option.some.injEq _ _).mp hr
  rw [hvv] at hkc
  simp [cancelAll] at hkc

theorem cancelRenderF_fold (f : Nat)
    (ih : ∀ s id, WfP s → s.nodes.length ≤ f + id → CancelConcl f s id) :
    ∀ (cs : List (String × Nat)) (acc : Sys) (lb : Nat),
      WfP acc → acc.nodes.length ≤ f + lb → (∀ kc ∈ cs, lb ≤ kc.2) →
      FoldConcl f cs acc lb := by
  intro cs
  induction cs with
  | nil =>
      intro acc lb _ _ _
      exact ⟨rfl, rfl, rfl, rfl, fun _ _ => rfl, fun _ => Or.inl rfl,
        self_childrenOf acc, fun kc hkc => by simp at hkc⟩
  | cons kc rest ihl =>
      intro acc lb hwf hlen hcs
      have hkc2 : lb ≤ kc.2 := hcs kc (List.mem_cons_self kc rest)
      have H : CancelConcl f acc kc.2 :=
        ih acc kc.2 hwf (le_trans hlen (Nat.add_le_add_left hkc2 f))
      have hstep : foldCancel f (kc :: rest) acc =
          foldCancel f rest (cancelRenderF f acc kc.2) := rfl
      have hwfN : WfP (cancelRenderF f acc kc.2) :=
        wf_of_pointwise acc _ H.getCases hwf
      have hlenN : (cancelRenderF f acc kc.2).nodes.length ≤ f + lb := by
        rw [H.len]; exact hlen
      have G : FoldConcl f rest (cancelRenderF f acc kc.2) lb :=
        ihl (cancelRenderF f acc kc.2) lb hwfN hlenN
          (fun kc' h => hcs kc' (List.mem_cons_of_mem kc h))
      have hheadCancel : (cancelRenderF f acc kc.2).get kc.2 =
          (acc.get kc.2).map cancelAll := by
        cases hacc : acc.get kc.2 with
        | none => rw [H.noneId hacc, hacc]; rfl
        | some w => rw [H.atId w hacc]; rfl
      refine ⟨?_, ?_, ?_, ?_, ?_, ?_, ?_, ?_⟩
      · rw [hstep, G.len, H.len]
      · rw [hstep, G.resp, H.resp]
      · rw [hstep, G.ticks, H.ticks]
      · rw [hstep, G.logEq, H.logEq]
      · intro j hj
        rw [hstep, G.lo j hj, H.lo j (Nat.lt_of_lt_of_le hj hkc2)]
      · intro j
        rw [hstep]
        rcases G.getCases j with g | g
        · rcases H.getCases j with h | h
          · exact Or.inl (g.trans h)
          · exact Or.inr (g.trans h)
        · rcases H.getCases j with h | h
          · exact Or.inr (by rw [g, h])
          · exact Or.inr (by rw [g, h, cancelAll_map_idem])
      · intro j v hacc hr kc' hkc'
        rw [hstep] at hr ⊢
        rcases H.getCases j with h | h
        · have hNj : (cancelRenderF f acc kc.2).get j = some v := h.trans hacc
          have hrec := G.childrenOf j v hNj hr kc' hkc'
          rw [hrec]
          exact map_cancelAll_cases (H.getCases kc'.2)
        · have hNj : (cancelRenderF f acc kc.2).get j = some (cancelAll v) := by
            rw [h, hacc]; rfl
          have hrec := H.childrenOf j v hacc hNj kc' hkc'
          rcases G.getCases kc'.2 with g | g
          · rw [g, hrec]
          · rw [g, hrec, cancelAll_map_idem]
      · intro kc' hkc'
        rw [hstep]
        rcases List.mem_cons.mp hkc' with h | h
        · subst h
          rcases G.getCases kc'.2 with g | g
          · rw [g, hheadCancel]
          · rw [g, hheadCancel, cancelAll_map_idem]
        · have hrec := G.proc kc' h
          rw [hrec]
          exact map_cancelAll_cases (H.getCases kc'.2)

theorem cancelRenderF_spec :
    ∀ (f : Nat) (s : Sys) (id : Nat), WfP s → s.nodes.length ≤ f + id →
      CancelConcl f s id := by
  intro f
  induction f with
  | zero =>
      intro s id _ hlen
      refine ⟨rfl, rfl, rfl, rfl, fun _ _ => rfl, fun _ => Or.inl rfl,
        fun _ => rfl, ?_, self_childrenOf s⟩
      intro v hv
      exact absurd (get_lt_length s id v hv) (by omega)
  | succ f ihf =>
      intro s id hwf hlen
      cases hv : s.get id with
      | none =>
          have hr := cancelRenderF_succ_none f s id hv
          refine ⟨by rw [hr], by rw [hr], by rw [hr], by rw [hr],
            fun j _ => by rw [hr], fun j => Or.inl (by rw [hr]),
            fun _ => hr, ?_, by rw [hr]; exact self_childrenOf s⟩
          intro v hv2
          rw [hv] at hv2
          cases hv2
      | some v =>
          have hstep := cancelRenderF_succ_some f s id v hv
          have hs1id : (s.modify id
              (fun w => { w with render_state := RS.canceled })).get id =
              some { v with render_state := RS.canceled } := by
            rw [get_modify, if_pos rfl, hv]; rfl
          have hs1ne : ∀ j, j ≠ id → (s.modify id
              (fun w => { w with render_state := RS.canceled })).get j = s.get j := by
            intro j hj
            rw [get_modify, if_neg hj]
          have hwf1 : WfP (s.modify id
              (fun w => { w with render_state := RS.canceled })) := by
            intro i w hw kc hkc
            by_cases hi : i = id
            · subst hi
              rw [hs1id] at hw
              have hwv : w = { v with render_state := RS.canceled } :=
                (Option.some.injEq _ _).mp hw.symm
              rw [hwv] at hkc
              exact hwf i v hv kc hkc
            · exact hwf i w (by rw [← hs1ne i hi]; exact hw) kc hkc
          have hlen1 : (s.modify id
              (fun w => { w with render_state := RS.canceled })).nodes.length ≤
              f + (id + 1) := by
            rw [modify_length]
            omega
          have hbound : ∀ kc ∈ v.children, id + 1 ≤ kc.2 :=
            fun kc hkc => hwf id v hv kc hkc
          have G := cancelRenderF_fold f ihf v.children
            (s.modify id (fun w => { w with render_state := RS.canceled }))
            (id + 1) hwf1 hlen1 hbound
          have hr2id : (foldCancel f v.children
              (s.modify id (fun w => { w with render_state := RS.canceled }))).get id =
              some { v with render_state := RS.canceled } := by
            rw [G.lo id (Nat.lt_succ_self id), hs1id]
          have hrid : (cancelRenderF (f + 1) s id).get id = some (cancelAll v) := by
            rw [hstep, get_modify, if_pos rfl, hr2id]
            rfl
          have hrne : ∀ j, j ≠ id → (cancelRenderF (f + 1) s id).get j =
              (foldCancel f v.children
                (s.modify id (fun w => { w with render_state := RS.canceled }))).get j := by
            intro j hj
            rw [hstep, get_modify, if_neg hj]
          refine ⟨?_, ?_, ?_, ?_, ?_, ?_, ?_, ?_, ?_⟩
          · rw [hstep, modify_length, G.len, modify_length]
          · rw [hstep, modify_resp, G.resp, modify_resp]
          · rw [hstep, modify_ticks, G.ticks, modify_ticks]
          · rw [hstep, modify_log, G.logEq, modify_log]
          · intro j hj
            rw [hrne j (by omega), G.lo j (by omega), hs1ne j (by omega)]
          · intro j
            by_cases hj : j = id
            · subst hj
              refine Or.inr ?_
              rw [hrid, hv]
              rfl
            · rw [hrne j hj]
              rcases G.getCases j with g | g
              · exact Or.inl (by rw [g, hs1ne j hj])
              · exact Or.inr (by rw [g, hs1ne j hj])
          · intro hnone
            rw [hv] at hnone
            cases hnone
          · intro w hw
            rw [hv] at hw
            have hwv : w = v := (Option.some.injEq _ _).mp hw.symm
            rw [hwv]
            exact hrid
          · intro j w hjw hrw kc hkc
            by_cases hj : j = id
            · subst hj
              rw [hv] at hjw
              have hwv : w = v := (Option.some.injEq _ _).mp hjw.symm
              subst hwv
              have hkgt : j < kc.2 := hwf j w hv kc hkc
              rw [hrne kc.2 (by omega), G.proc kc hkc, hs1ne kc.2 (by omega)]
            · have hs1j : (s.modify id
                  (fun w₁ => { w₁ with render_state := RS.canceled })).get j = some w := by
                rw [hs1ne j hj]; exact hjw
              have hr2j : (foldCancel f v.children
                  (s.modify id (fun w₁ => { w₁ with render_state := RS.canceled }))).get j =
                  some (cancelAll w) := by
                rw [← hrne j hj]; exact hrw
              have hrec := G.childrenOf j w hs1j hr2j kc hkc
              by_cases hk : kc.2 = id
              · rw [hk] at hrec ⊢
                rw [hv]
                rw [hrid]
                rfl
              · rw [hrne kc.2 hk, hrec, hs1ne kc.2 hk]

theorem modify_modify (s : Sys) (id : Nat) (f g : View → View) :
    (s.modify id f).modify id g = s.modify id (fun v => g (f v)) := by
  cases hv : s.get id with
  | none =>
      have h1 : s.modify id f = s := by unfold Sys.modify; rw [hv]
      have h2 : s.modify id g = s := by unfold Sys.modify; rw [hv]
      have h3 : s.modify id (fun v => g (f v)) = s := by unfold Sys.modify; rw [hv]
      rw [h1, h2, h3]
  | some v =>
      set s₁ := s.modify id f with hs₁
      have h2 : s₁.get id = some (f v) := by
        rw [hs₁, get_modify, if_pos rfl, hv]; rfl
      have h4 : s₁.modify id g = { s₁ with nodes := s₁.nodes.set id (g (f v)) } := by
        unfold Sys.modify; rw [h2]
      have h1 : s₁ = { s with nodes := s.nodes.set id (f v) } := by
        rw [hs₁]; unfold Sys.modify; rw [hv]
      have h3 : s.modify id (fun v => g (f v)) =
          { s with nodes := s.nodes.set id (g (f v)) } := by
        unfold Sys.modify; rw [hv]
      rw [h4, h1, h3]
      simp [List.set_set]

theorem cancelRender_eq_F (s : Sys) (id : Nat) :
    cancelRender s id = cancelRenderF s.nodes.length s id := rfl

theorem cancelRender_concl (s : Sys) (id : Nat) (hwf : WfP s) :
    CancelConcl s.nodes.length s id :=
  cancelRenderF_spec s.nodes.length s id hwf (Nat.le_add_right _ _)

/-- After cancelRender on a node, every node reachable from it along
the original children edges is fully cancelled. -/
theorem cancelRender_reach (s : Sys) (id : Nat) (hwf : WfP s) :
    ∀ d, Reach s id d → (cancelRender s id).get d = (s.get d).map cancelAll := by
  have C := cancelRender_concl s id hwf
  intro d hd
  induction hd with
  | refl =>
      cases hv : s.get id with
      | none =>
          rw [cancelRender_eq_F, C.noneId hv, hv]
          rfl
      | some v =>
          rw [cancelRender_eq_F, C.atId v hv]
          rfl
  | step j v kc hreach hv hkc ih =>
      have hj : (cancelRender s id).get j = some (cancelAll v) := by
        rw [ih, hv]; rfl
      rw [cancelRender_eq_F] at hj ⊢
      exact C.childrenOf j v hv hj kc hkc

/-- cancelRender is idempotent as an operation on whole systems. -/
theorem cancelRender_idem (s : Sys) (id : Nat) (hwf : WfP s) :
    cancelRender (cancelRender s id) id = cancelRender s id := by
  have C := cancelRender_concl s id hwf
  cases hv : s.get id with
  | none =>
      have h1 : cancelRender s id = s := C.noneId hv
      rw [h1, h1]
  | some v =>
      have hrid : (cancelRender s id).get id = some (cancelAll v) := C.atId v hv
      have hlt : id < (cancelRender s id).nodes.length := by
        rw [cancelRender_eq_F, C.len]
        exact get_lt_length s id v hv
      obtain ⟨m, hm⟩ : ∃ m, (cancelRender s id).nodes.length = m + 1 :=
        ⟨(cancelRender s id).nodes.length - 1, by omega⟩
      rw [cancelRender_eq_F (cancelRender s id) id, hm,
        cancelRenderF_succ_some m (cancelRender s id) id (cancelAll v) hrid]
      have hch : (cancelAll v).children = [] := rfl
      rw [modify_congr_self (cancelRender s id) id _ (cancelAll v) hrid rfl]
      rw [hch]
      show (cancelRender s id).modify id (fun w => { w with children := [] }) =
        cancelRender s id
      exact modify_congr_self (cancelRender s id) id _ (cancelAll v) hrid rfl

/-
Effect lemmas for render without force.
-/

theorem renderNF_noneId (s : Sys) (id : Nat) (t : Option String)
    (hv : s.get id = none) : renderNF s id t = s := by
  unfold renderNF
  rw [hv]

theorem renderNF_canceled (s : Sys) (id : Nat) (v : View) (t : Option String)
    (hv : s.get id = some v) (hc : v.render_state = RS.canceled) :
    renderNF s id t = s := by
  unfold renderNF
  rw [hv]
  simp [hc]

theorem renderNF_go (s : Sys) (id : Nat) (v : View) (t : Option String)
    (hv : s.get id = some v) (hc : v.render_state ≠ RS.canceled)
    (hgate : canRender
      (s.modify id (fun w => { w with render_state := RS.requested })) id = true) :
    renderNF s id t =
      { s.modify id (fun w => { w with render_state := RS.started }) with
        log := s.log ++
          [(id, v.dir ++ optStr (if truthy v.template then v.template else t))] } := by
  unfold renderNF
  rw [hv]
  simp only [if_neg hc, hgate, if_true]
  rw [modify_modify]
  have hlog : (s.modify id
      (fun w => { w with render_state := RS.started })).log = s.log := modify_log ..
  rw [hlog]

theorem renderNF_wait_keep (s : Sys) (id : Nat) (v : View) (t : Option String)
    (hv : s.get id = some v) (hc : v.render_state ≠ RS.canceled)
    (hgate : canRender
      (s.modify id (fun w => { w with render_state := RS.requested })) id = false)
    (htm : truthy v.template = true) :
    renderNF s id t =
      s.modify id (fun w => { w with render_state := RS.requested }) := by
  unfold renderNF
  rw [hv]
  simp only [if_neg hc, hgate, htm, if_true, Bool.false_eq_true, if_false]

theorem renderNF_wait_set (s : Sys) (id : Nat) (v : View) (t : Option String)
    (hv : s.get id = some v) (hc : v.render_state ≠ RS.canceled)
    (hgate : canRender
      (s.modify id (fun w => { w with render_state := RS.requested })) id = false)
    (htm : truthy v.template = false) :
    renderNF s id t =
      s.modify id (fun w => { w with render_state := RS.requested, template := t }) := by
  unfold renderNF
  rw [hv]
  simp only [if_neg hc, hgate, htm, Bool.false_eq_true, if_false]
  rw [modify_modify]

theorem render_force_eq (s : Sys) (id : Nat) (t : Option String) :
    render s id t true =
      renderNF
        (((cancelRender s id).modify id
            (fun w => { w with render_state := RS.requested })).modify id
          (fun w => { w with template := t })) id t := rfl

/-
Shared helper: the full effect of render with force on a well-formed
arena.
-/

theorem render_force_spec (s : Sys) (id : Nat) (v : View) (t : Option String)
    (hwfp : WfP s) (hv : s.get id = some v) :
    (render s id t true).get id =
      some { v with render_state := RS.started, template := t, children := [] } ∧
    (render s id t true).log = s.log ++ [(id, v.dir ++ optStr t)] ∧
    (∀ d, Reach s id d → d ≠ id →
      (render s id t true).get d = (s.get d).map cancelAll) ∧
    (render s id t true).ticks = s.ticks := by
  have C := cancelRender_concl s id hwfp
  have hr1id : (cancelRender s id).get id = some (cancelAll v) := C.atId v hv
  have hmm : ((cancelRender s id).modify id
      (fun w => { w with render_state := RS.requested })).modify id
      (fun w => { w with template := t }) =
      (cancelRender s id).modify id
        (fun w => { w with render_state := RS.requested, template := t }) := by
    rw [modify_modify]
  set s3 := (cancelRender s id).modify id
      (fun w => { w with render_state := RS.requested, template := t }) with hs3
  have hs3id : s3.get id =
      some { v with render_state := RS.requested, template := t, children := [] } := by
    rw [hs3, get_modify, if_pos rfl, hr1id]
    rfl
  have hforce : render s id t true = renderNF s3 id t := by
    rw [render_force_eq, hmm]
  have hmid : (s3.modify id (fun w => { w with render_state := RS.requested })).get id =
      some { v with render_state := RS.requested, template := t, children := [] } := by
    rw [get_modify, if_pos rfl, hs3id]
    rfl
  have hgate : canRender
      (s3.modify id (fun w => { w with render_state := RS.requested })) id = true := by
    rw [canRender_eq _ id _ hmid]
    simp
  have hgo := renderNF_go s3 id
    { v with render_state := RS.requested, template := t, children := [] } t
    hs3id (by simp) hgate
  have hs3log : s3.log = s.log := by
    rw [hs3, modify_log]
    exact C.logEq
  have hs3ticks : s3.ticks = s.ticks := by
    rw [hs3, modify_ticks]
    exact C.ticks
  refine ⟨?_, ?_, ?_, ?_⟩
  · rw [hforce, hgo]
    show (s3.modify id (fun w => { w with render_state := RS.started })).get id = _
    rw [get_modify, if_pos rfl, hs3id]
    rfl
  · rw [hforce, hgo]
    show s3.log ++ [(id, _)] = _
    rw [hs3log]
    simp [ite_self]
  · intro d hd hdne
    rw [hforce, hgo]
    show (s3.modify id (fun w => { w with render_state := RS.started })).get d = _
    rw [get_modify, if_neg hdne, hs3, get_modify, if_neg hdne]
    exact cancelRender_reach s id hwfp d hd
  · rw [hforce, hgo]
    show (s3.modify id (fun w => { w with render_state := RS.started })).ticks = _
    rw [modify_ticks]
    exact hs3ticks

/-
Claim theorems.
-/

/-- C2: canRender returns true exactly when the render_state is
RENDER_REQUESTED and every entry of the children mapping has reached
RENDER_COMPLETE; consequently a node with zero children that is not
cancelled enters RENDER_STARTED and invokes its renderer as soon as
render() marks it RENDER_REQUESTED. -/
theorem claim_C2 (s : Sys) (id : Nat) (v : View) (t : Option String)
    (hv : s.get id = some v) :
    (canRender s id = true ↔
      (v.render_state = RS.requested ∧ ∀ kc ∈ v.children, isRendered s kc.2 = true)) ∧
    (v.children = [] → v.render_state ≠ RS.canceled →
      ((render s id t false).get id).map View.render_state = some RS.started ∧
      (render s id t false).log = s.log ++
        [(id, v.dir ++ optStr (if truthy v.template then v.template else t))]) := by
  constructor
  · rw [canRender_eq s id v hv]
    simp [List.all_eq_true]
  · intro hch hc
    have hmid : (s.modify id (fun w => { w with render_state := RS.requested })).get id
        = some { v with render_state := RS.requested } := by
      rw [get_modify, if_pos rfl, hv]
      rfl
    have hgate : canRender
        (s.modify id (fun w => { w with render_state := RS.requested })) id = true := by
      rw [canRender_eq _ id _ hmid]
      simp [hch]
    have hre : render s id t false = renderNF s id t := rfl
    rw [hre, renderNF_go s id v t hv hc hgate]
    refine ⟨?_, rfl⟩
    show ((s.modify id (fun w => { w with render_state := RS.started })).get id).map
      View.render_state = some RS.started
    rw [get_modify, if_pos rfl, hv]
    rfl

/-- Witness for C2 at a concrete childless view. -/
theorem claim_C2_witness :
    ((render exDone 0 (some "u") false).get 0).map View.render_state = some RS.started ∧
    (render exDone 0 (some "u") false).log = [(0, "dt")] := by
  have h := (claim_C2 exDone 0 (mkView RS.complete (some "t") [] [] none Sink.real)
      (some "u") rfl).2 rfl (by decide)
  refine ⟨h.1, ?_⟩
  rw [h.2]
  rfl

/-- C7: render without force on a cancelled view is a silent no-op:
the whole system, state, template, data, children and log included, is
unchanged and no renderer is built. -/
theorem claim_C7 (s : Sys) (id : Nat) (v : View) (t : Option String)
    (hv : s.get id = some v) (hc : v.render_state = RS.canceled) :
    render s id t false = s := by
  show renderNF s id t = s
  exact renderNF_canceled s id v t hv hc

/-- Witness for C7 at a concrete cancelled view. -/
theorem claim_C7_witness : render exCanceled 0 (some "t") false = exCanceled :=
  claim_C7 exCanceled 0 (mkView RS.canceled none [("k", "v")] [] none Sink.real)
    (some "t") rfl rfl

/-- C10: when a cancelled parent has already discarded its children
mapping and the fake-response end of a previously created child still
fires, the child is marked RENDER_COMPLETE and its buffer is written
into the parent data under the captured key, but the cancelled parent
fails the gate, so no parent render is scheduled and nothing is
rendered. -/
theorem claim_C10 (s : Sys) (cid pid : Nat) (v pv : View) (buf key : String)
    (hv : s.get cid = some v) (hsink : v.sink = Sink.fake buf key)
    (hpar : v.parent = some pid) (hne : cid ≠ pid)
    (hp : s.get pid = some pv) (hpc : pv.render_state = RS.canceled) :
    (fakeResponseEnd s cid).get cid = some { v with render_state := RS.complete } ∧
    (fakeResponseEnd s cid).get pid =
      some { pv with data := assocSet pv.data key buf } ∧
    canRender (fakeResponseEnd s cid) pid = false ∧
    (fakeResponseEnd s cid).ticks = s.ticks ∧
    (fakeResponseEnd s cid).log = s.log := by
  have hs1cid : (s.modify cid (fun w => { w with render_state := RS.complete })).get cid
      = some { v with render_state := RS.complete } := by
    rw [get_modify, if_pos rfl, hv]
    rfl
  have hs1pid : (s.modify cid (fun w => { w with render_state := RS.complete })).get pid
      = some pv := by
    rw [get_modify, if_neg (fun h => hne h.symm)]
    exact hp
  have hs2pid : (setData
      (s.modify cid (fun w => { w with render_state := RS.complete })) pid key buf).get pid
      = some { pv with data := assocSet pv.data key buf } := by
    unfold setData
    rw [get_modify, if_pos rfl, hs1pid]
    rfl
  have hs2cid : (setData
      (s.modify cid (fun w => { w with render_state := RS.complete })) pid key buf).get cid
      = some { v with render_state := RS.complete } := by
    unfold setData
    rw [get_modify, if_neg hne]
    exact hs1cid
  have hgate : canRender (setData
      (s.modify cid (fun w => { w with render_state := RS.complete })) pid key buf) pid
      = false := by
    rw [canRender_eq _ pid _ hs2pid]
    simp [hpc]
  have hstep : fakeResponseEnd s cid = setData
      (s.modify cid (fun w => { w with render_state := RS.complete })) pid key buf := by
    simp only [fakeResponseEnd, hv, hsink, hpar, hgate, Bool.false_eq_true, if_false]
  refine ⟨?_, ?_, ?_, ?_, ?_⟩
  · rw [hstep]
    exact hs2cid
  · rw [hstep]
    exact hs2pid
  · rw [hstep]
    exact hgate
  · rw [hstep]
    unfold setData
    rw [modify_ticks, modify_ticks]
  · rw [hstep]
    unfold setData
    rw [modify_log, modify_log]

/-- Witness for C10 at a concrete cancelled parent with an orphaned
in-flight child. -/
theorem claim_C10_witness :
    (fakeResponseEnd exOrphan 1).get 1 =
      some { mkView RS.started none [] [] (some 0) (Sink.fake "late" "c") with
        render_state := RS.complete } ∧
    (fakeResponseEnd exOrphan 1).get 0 =
      some { mkView RS.canceled none [("old", "x")] [] none Sink.real with
        data := assocSet [("old", "x")] "c" "late" } ∧
    canRender (fakeResponseEnd exOrphan 1) 0 = false ∧
    (fakeResponseEnd exOrphan 1).ticks = [] ∧
    (fakeResponseEnd exOrphan 1).log = [] :=
  claim_C10 exOrphan 1 0
    (mkView RS.started none [] [] (some 0) (Sink.fake "late" "c"))
    (mkView RS.canceled none [("old", "x")] [] none Sink.real)
    "late" "c" rfl rfl rfl (by decide) rfl rfl

/-- C6: cancelRender marks the node RENDER_CANCELED and empties its
children mapping, recursively does the same to every reachable
descendant, and a second call changes nothing at all. -/
theorem claim_C6 (s : Sys) (id : Nat) (v : View)
    (hwf : Wf s = true) (hv : s.get id = some v) :
    cancelRender (cancelRender s id) id = cancelRender s id ∧
    (cancelRender s id).get id = some (cancelAll v) ∧
    (∀ d, Reach s id d → (cancelRender s id).get d = (s.get d).map cancelAll) ∧
    (∀ d w, Reach s id d → (cancelRender s id).get d = some w →
      w.render_state = RS.canceled ∧ w.children = []) := by
  have hwfp := wfP_of_wf s hwf
  refine ⟨cancelRender_idem s id hwfp,
    (cancelRender_concl s id hwfp).atId v hv,
    cancelRender_reach s id hwfp, ?_⟩
  intro d w hd hw
  rw [cancelRender_reach s id hwfp d hd] at hw
  cases hsd : s.get d with
  | none => rw [hsd] at hw; cases hw
  | some w₀ =>
      rw [hsd] at hw
      simp only [Option.map_some'] at hw
      have hww : w = cancelAll w₀ := ((Option.some.injEq _ _).mp hw).symm
      rw [hww]
      exact ⟨rfl, rfl⟩

/-- Witness for C6 at a concrete two-level tree. -/
theorem claim_C6_witness :
    cancelRender (cancelRender exTree 0) 0 = cancelRender exTree 0 ∧
    (cancelRender exTree 0).get 0 =
      some (cancelAll (mkView RS.requested (some "r") [] [("a", 1)] none Sink.real)) ∧
    (∀ d, Reach exTree 0 d →
      (cancelRender exTree 0).get d = (exTree.get d).map cancelAll) ∧
    (∀ d w, Reach exTree 0 d → (cancelRender exTree 0).get d = some w →
      w.render_state = RS.canceled ∧ w.children = []) :=
  claim_C6 exTree 0 (mkView RS.requested (some "r") [] [("a", 1)] none Sink.real)
    (by decide) rfl

/-- C4: render with force on any view of a well-formed arena, whatever
its state (cancelled included), cancels the whole subtree (descendants
cancelled with emptied children mappings), overwrites the template with
the supplied one, and unconditionally enters RENDER_STARTED, invoking
the renderer on the supplied template. -/
theorem claim_C4 (s : Sys) (id : Nat) (v : View) (t : String)
    (hwf : Wf s = true) (hv : s.get id = some v) :
    (render s id (some t) true).get id =
      some { v with render_state := RS.started, template := some t, children := [] } ∧
    (render s id (some t) true).log = s.log ++ [(id, v.dir ++ t)] ∧
    (∀ d, Reach s id d → d ≠ id →
      (render s id (some t) true).get d = (s.get d).map cancelAll) := by
  have h := render_force_spec s id v (some t) (wfP_of_wf s hwf) hv
  exact ⟨h.1, h.2.1, h.2.2.1⟩

/-- Witness for C4 at a concrete two-level tree. -/
theorem claim_C4_witness :
    (render exTree 0 (some "x") true).get 0 =
      some { mkView RS.requested (some "r") [] [("a", 1)] none Sink.real with
        render_state := RS.started, template := some "x", children := [] } ∧
    (render exTree 0 (some "x") true).log = [(0, "dx")] ∧
    (∀ d, Reach exTree 0 d → d ≠ 0 →
      (render exTree 0 (some "x") true).get d = (exTree.get d).map cancelAll) := by
  have h := claim_C4 exTree 0
    (mkView RS.requested (some "r") [] [("a", 1)] none Sink.real) "x" (by decide) rfl
  exact ⟨h.1, h.2.1, h.2.2⟩

/-- Counterexample to C3 as stated: RENDER_COMPLETE is not terminal.
On an already complete childless view, a plain render() call moves the
state back through RENDER_REQUESTED into RENDER_STARTED and re-invokes
the renderer. -/
theorem claim_C3_counterexample :
    (exDone.get 0).map View.render_state = some RS.complete ∧
    ((render exDone 0 none false).get 0).map View.render_state = some RS.started ∧
    (render exDone 0 none false).log = [(0, "dt")] := by
  exact ⟨rfl, rfl, rfl⟩

/-- C3 amended: the exact transition behaviour of each operation.
render without force leaves a RENDER_CANCELED view unchanged, but from
any other state (RENDER_COMPLETE and RENDER_FAILED included) re-enters
RENDER_REQUESTED and, when the gate holds, RENDER_STARTED; cancelRender
forces RENDER_CANCELED from every state including RENDER_COMPLETE; the
renderer callbacks set RENDER_COMPLETE and RENDER_FAILED; render with
force reaches RENDER_STARTED from every state including
RENDER_CANCELED.  RENDER_COMPLETE and RENDER_CANCELED are therefore
not terminal. -/
theorem claim_C3_amended (s : Sys) (id : Nat) (v : View) (t : Option String)
    (hwf : Wf s = true) (hv : s.get id = some v) :
    ((render s id t false).get id).map View.render_state =
      some (if v.render_state = RS.canceled then RS.canceled
        else if canRender
          (s.modify id (fun w => { w with render_state := RS.requested })) id
        then RS.started else RS.requested) ∧
    ((cancelRender s id).get id).map View.render_state = some RS.canceled ∧
    ((rendererEnd s id).get id).map View.render_state = some RS.complete ∧
    ((rendererError s id).get id).map View.render_state = some RS.failed ∧
    (∀ u : String,
      ((render s id (some u) true).get id).map View.render_state = some RS.started) := by
  have hwfp := wfP_of_wf s hwf
  refine ⟨?_, ?_, ?_, ?_, ?_⟩
  · have hre : render s id t false = renderNF s id t := rfl
    by_cases hc : v.render_state = RS.canceled
    · rw [if_pos hc, hre, renderNF_canceled s id v t hv hc, hv]
      simp [hc]
    · rw [if_neg hc]
      cases hgate : canRender
          (s.modify id (fun w => { w with render_state := RS.requested })) id with
      | true =>
          rw [if_pos rfl, hre, renderNF_go s id v t hv hc hgate]
          show ((s.modify id
            (fun w => { w with render_state := RS.started })).get id).map _ = _
          rw [get_modify, if_pos rfl, hv]
          rfl
      | false =>
          rw [if_neg (by simp), hre]
          cases htm : truthy v.template with
          | true =>
              rw [renderNF_wait_keep s id v t hv hc hgate htm, get_modify, if_pos rfl, hv]
              rfl
          | false =>
              rw [renderNF_wait_set s id v t hv hc hgate htm, get_modify, if_pos rfl, hv]
              rfl
  · rw [cancelRender_eq_F, (cancelRender_concl s id hwfp).atId v hv]
    rfl
  · unfold rendererEnd
    rw [get_modify, if_pos rfl, hv]
    rfl
  · unfold rendererError
    rw [get_modify, if_pos rfl, hv]
    rfl
  · intro u
    rw [(render_force_spec s id v (some u) hwfp hv).1]
    rfl

/-- Witness for the amended C3 at a concrete cancelled view. -/
theorem claim_C3_amended_witness :
    ((render exCanceled 0 (some "t") false).get 0).map View.render_state =
      some RS.canceled ∧
    ((cancelRender exCanceled 0).get 0).map View.render_state = some RS.canceled ∧
    ((rendererEnd exCanceled 0).get 0).map View.render_state = some RS.complete ∧
    ((rendererError exCanceled 0).get 0).map View.render_state = some RS.failed ∧
    ((render exCanceled 0 (some "u") true).get 0).map View.render_state =
      some RS.started := by
  have h := claim_C3_amended exCanceled 0
    (mkView RS.canceled none [("k", "v")] [] none Sink.real) (some "t") (by decide) rfl
  exact ⟨by rw [h.1]; rfl, h.2.1, h.2.2.1, h.2.2.2.1, h.2.2.2.2 "u"⟩

/-- Counterexample to C5 as stated: the empty string is a falsy
template, so a first render with the empty-string template is not
remembered, and a later render("b") both overwrites the stored
template and is the template the eventual gated render uses. -/
theorem claim_C5_counterexample :
    ((render (render exPending 0 (some "") false) 0 (some "b") false).get 0).map
      View.template = some (some "b") ∧
    (runTick (fakeResponseEnd
      (render (render exPending 0 (some "") false) 0 (some "b") false) 1)).log =
      [(0, "db")] := by
  exact ⟨rfl, rfl⟩

/-- C5 amended: the first non-empty template passed to render without
force while the gate fails is remembered and wins over the template
argument of any later forceless render call, and a later gated render
renders it; an empty-string first template is treated as unset. -/
theorem claim_C5_amended (s : Sys) (id : Nat) (v : View) (a : String) (t₂ : Option String)
    (hv : s.get id = some v) (hc : v.render_state ≠ RS.canceled)
    (htm : v.template = none) (ha : a ≠ "")
    (hpend : canRender
      (s.modify id (fun w => { w with render_state := RS.requested })) id = false) :
    ((render s id (some a) false).get id).map View.template = some (some a) ∧
    (render s id (some a) false).log = s.log ∧
    ((render (render s id (some a) false) id t₂ false).get id).map View.template =
      some (some a) ∧
    ((render (render s id (some a) false) id t₂ false).log = s.log ∨
      (render (render s id (some a) false) id t₂ false).log =
        s.log ++ [(id, v.dir ++ a)]) := by
  have hre : ∀ (s₀ : Sys) (t₀ : Option String), render s₀ id t₀ false = renderNF s₀ id t₀ :=
    fun _ _ => rfl
  have htr : truthy v.template = false := by rw [htm]; rfl
  have h1 : render s id (some a) false =
      s.modify id (fun w => { w with render_state := RS.requested, template := some a }) := by
    rw [hre, renderNF_wait_set s id v (some a) hv hc hpend htr]
  have h1id : (render s id (some a) false).get id =
      some { v with render_state := RS.requested, template := some a } := by
    rw [h1, get_modify, if_pos rfl, hv]
    rfl
  have h1log : (render s id (some a) false).log = s.log := by
    rw [h1, modify_log]
  have htra : truthy (some a) = true := by
    simp [truthy, ha]
  refine ⟨by rw [h1id]; rfl, h1log, ?_⟩
  have hv₁ : (render s id (some a) false).get id =
      some { v with render_state := RS.requested, template := some a } := h1id
  cases hgate : canRender ((render s id (some a) false).modify id
      (fun w => { w with render_state := RS.requested })) id with
  | true =>
      have hgo := renderNF_go (render s id (some a) false) id
        { v with render_state := RS.requested, template := some a } t₂ hv₁ (by simp [hc]) hgate
      rw [hre, hgo]
      constructor
      · show ((((render s id (some a) false)).modify id
          (fun w => { w with render_state := RS.started })).get id).map View.template = _
        rw [get_modify, if_pos rfl, hv₁]
        rfl
      · refine Or.inr ?_
        show (render s id (some a) false).log ++ [(id, _)] = _
        rw [h1log]
        simp [htra, optStr]
  | false =>
      have hk := renderNF_wait_keep (render s id (some a) false) id
        { v with render_state := RS.requested, template := some a } t₂ hv₁
        (by simp [hc]) hgate htra
      rw [hre, hk]
      constructor
      · rw [get_modify, if_pos rfl, hv₁]
        rfl
      · refine Or.inl ?_
        rw [modify_log, h1log]

/-- Witness for the amended C5: a pending parent remembers template a
and a later render("b") does not displace it. -/
theorem claim_C5_amended_witness :
    ((render exPending 0 (some "a") false).get 0).map View.template = some (some "a") ∧
    (render exPending 0 (some "a") false).log = [] ∧
    ((render (render exPending 0 (some "a") false) 0 (some "b") false).get 0).map
      View.template = some (some "a") ∧
    ((render (render exPending 0 (some "a") false) 0 (some "b") false).log = [] ∨
      (render (render exPending 0 (some "a") false) 0 (some "b") false).log =
        [] ++ [(0, "d" ++ "a")]) :=
  claim_C5_amended exPending 0 (mkView RS.notCalled none [] [("c", 1)] none Sink.real)
    "a" (some "b") rfl (by decide) rfl (by decide) (by decide)

/-- Counterexample to C8 as stated: in revision B, a pending failure
signal is delivered synchronously during error(fn) registration, not at
the next scheduling opportunity; revision A indeed only schedules it. -/
theorem claim_C8_counterexample :
    (errorRegB (fireError {} "e") 7).invoked = [(7, some "e")] ∧
    (errorRegB (fireError {} "e") 7).tasks = [] ∧
    (errorRegA (fireError {} "e") 7).invoked = [] ∧
    (errorRegA (fireError {} "e") 7).tasks = [(7, some "e")] := by
  exact ⟨rfl, rfl, rfl, rfl⟩

/-- C8 amended: a failure or completion signal that fires before a
handler is registered is never lost: once a handler is attached it is
invoked with the pending error (or invoked for completion) — deferred
to the next scheduling opportunity in revision A, synchronously during
registration in revision B. -/
theorem claim_C8_amended (r : Rend) (fn : Nat) (err : String)
    (he : r.errH = none) (hd : r.endH = none) :
    ((errorRegA (fireError r err) fn).invoked = r.invoked ∧
      (fn, some err) ∈ (runTicks (errorRegA (fireError r err) fn)).invoked) ∧
    (fn, some err) ∈ (errorRegB (fireError r err) fn).invoked ∧
    ((endRegA (fireEnd r) fn).invoked = r.invoked ∧
      (fn, none) ∈ (runTicks (endRegA (fireEnd r) fn)).invoked) ∧
    (fn, none) ∈ (endRegB (fireEnd r) fn).invoked := by
  have hfe : fireError r err = { r with pendingErr := some err } := by
    unfold fireError
    rw [he]
  have hfd : fireEnd r = { r with pendingEnd := true } := by
    unfold fireEnd
    rw [hd]
  refine ⟨⟨?_, ?_⟩, ?_, ⟨?_, ?_⟩, ?_⟩
  · rw [hfe]
    rfl
  · rw [hfe]
    show (fn, some err) ∈ r.invoked ++ (r.tasks ++ [(fn, some err)])
    simp
  · rw [hfe]
    show (fn, some err) ∈ r.invoked ++ [(fn, some err)]
    simp
  · rw [hfd]
    unfold endRegA
    simp
  · rw [hfd]
    unfold endRegA runTicks
    simp
  · rw [hfd]
    unfold endRegB
    simp

/-- Witness for the amended C8 at a fresh renderer. -/
theorem claim_C8_amended_witness :
    ((errorRegA (fireError {} "e") 7).invoked = ([] : List (Nat × Option String)) ∧
      (7, some "e") ∈ (runTicks (errorRegA (fireError {} "e") 7)).invoked) ∧
    (7, some "e") ∈ (errorRegB (fireError {} "e") 7).invoked ∧
    ((endRegA (fireEnd {}) 7).invoked = ([] : List (Nat × Option String)) ∧
      (7, none) ∈ (runTicks (endRegA (fireEnd {}) 7)).invoked) ∧
    (7, none) ∈ (endRegB (fireEnd {}) 7).invoked :=
  claim_C8_amended {} 7 "e" rfl rfl

/-
Helpers relating the two revisions of the module.
-/

theorem canRenderB_eq_A : ∀ (s : Sys) (id : Nat), canRenderB s id = canRender s id :=
  fun _ _ => rfl

theorem renderNFB_eq_A : ∀ (s : Sys) (id : Nat) (t : Option String),
    renderNFB s id t = renderNF s id t :=
  fun _ _ _ => rfl

theorem fakeResponseEndB_eq_A : ∀ (s : Sys) (cid : Nat),
    fakeResponseEndB s cid = fakeResponseEnd s cid :=
  fun _ _ => rfl

theorem cancelRenderFB_eq_A : ∀ (f : Nat) (s : Sys) (id : Nat),
    cancelRenderFB f s id = cancelRenderF f s id := by
  intro f
  induction f with
  | zero => intro s id; rfl
  | succ f ih =>
      intro s id
      have hfold : ∀ (cs : List (String × Nat)) (acc : Sys),
          cs.foldl (fun t kc => cancelRenderFB f t kc.2) acc =
          cs.foldl (fun t kc => cancelRenderF f t kc.2) acc := by
        intro cs
        induction cs with
        | nil => intro acc; rfl
        | cons kc rest ihl =>
            intro acc
            simp only [List.foldl_cons, ih, ihl]
      cases hv : s.get id with
      | none =>
          unfold cancelRenderFB cancelRenderF
          rw [hv]
      | some v =>
          unfold cancelRenderFB cancelRenderF
          rw [hv]
          simp only
          rw [hfold]

/-- Counterexample to C9 as stated: the two revisions are
observationally different.  statusNotFound with a string template
force-renders it in revision A (renderer invoked, response left open)
but ends the root response without any render in revision B. -/
theorem claim_C9_counterexample :
    (statusNotFoundA exDone 0 (some "x")).resp.ended = false ∧
    (statusNotFoundA exDone 0 (some "x")).log = [(0, "dx")] ∧
    (statusNotFoundA exDone 0 (some "x")).resp.statusCode = some 404 ∧
    (statusNotFoundB exDone 0 (some "x")).resp.ended = true ∧
    (statusNotFoundB exDone 0 (some "x")).log = [] ∧
    (statusNotFoundB exDone 0 (some "x")).resp.statusCode = some 404 := by
  exact ⟨rfl, rfl, rfl, rfl, rfl, rfl⟩

/-- C9 amended: the two revisions implement identical state transitions
for the core coordination operations (isRendered, canRender,
cancelRender, render, the fake-response end), but they are not
observationally equivalent as whole modules: statusNotFound and the
pending-signal delivery of the Renderer differ. -/
theorem claim_C9_amended :
    (∀ (s : Sys) (id : Nat), isRenderedB s id = isRendered s id) ∧
    (∀ (s : Sys) (id : Nat), canRenderB s id = canRender s id) ∧
    (∀ (s : Sys) (id : Nat), cancelRenderB s id = cancelRender s id) ∧
    (∀ (s : Sys) (id : Nat) (t : Option String) (force : Bool),
      renderB s id t force = render s id t force) ∧
    (∀ (s : Sys) (cid : Nat), fakeResponseEndB s cid = fakeResponseEnd s cid) := by
  refine ⟨fun _ _ => rfl, canRenderB_eq_A, ?_, ?_, fakeResponseEndB_eq_A⟩
  · intro s id
    unfold cancelRenderB cancelRender
    exact cancelRenderFB_eq_A s.nodes.length s id
  · intro s id t force
    cases force with
    | false => exact renderNFB_eq_A s id t
    | true =>
        unfold renderB render
        simp only [if_true]
        unfold cancelRenderB cancelRender
        rw [cancelRenderFB_eq_A]
        rw [renderNFB_eq_A]

/-
Lemmas for the completion-ordering analysis (claim C1).
-/

theorem list_all_congr (l : List Nat) (p q : Nat → Bool)
    (h : ∀ x ∈ l, p x = q x) : l.all p = l.all q := by
  induction l with
  | nil => rfl
  | cons x xs ih =>
      simp only [List.all_cons]
      rw [h x (List.mem_cons_self x xs), ih (fun y hy => h y (List.mem_cons_of_mem x hy))]

theorem isRendered_congr (s₁ s₂ : Sys) (id : Nat) (h : s₁.get id = s₂.get id) :
    isRendered s₁ id = isRendered s₂ id := by
  unfold isRendered
  rw [h]

theorem allDone_iff (s : Sys) (n : Nat) :
    (List.range n).all (fun j => isRendered s (j + 1)) = true ↔ allDone s n := by
  rw [List.all_eq_true]
  constructor
  · intro h j hj
    exact h j (List.mem_range.mpr hj)
  · intro h x hx
    exact h x (List.mem_range.mp hx)

theorem list_all_map {α β : Type} (l : List α) (f : α → β) (p : β → Bool) :
    (l.map f).all p = l.all (fun x => p (f x)) := by
  induction l with
  | nil => rfl
  | cons x xs ih => simp only [List.map_cons, List.all_cons, ih]

theorem c1_canRender (n : Nat) (s : Sys) (pv : View)
    (hp : s.get 0 = some pv)
    (hch : pv.children = (List.range n).map (fun j => (Nat.repr (j + 1), j + 1))) :
    canRender s 0 = (pv.render_state == RS.requested &&
      (List.range n).all (fun j => isRendered s (j + 1))) := by
  rw [canRender_eq s 0 pv hp, hch, list_all_map]

theorem frame_modify_parent (n : Nat) (b : Nat → String) (s : Sys) (pv : View)
    (hf : C1Frame n b s pv) (f : View → View)
    (hchf : (f pv).children = pv.children) (hsinkf : (f pv).sink = pv.sink)
    (hdirf : (f pv).dir = pv.dir) (hparf : (f pv).parent = pv.parent) :
    C1Frame n b (s.modify 0 f) (f pv) := by
  refine ⟨?_, ?_, ?_, ?_, ?_, ?_, ?_⟩
  · rw [modify_length]
    exact hf.len
  · rw [get_modify, if_pos rfl, hf.hp]
    rfl
  · rw [hchf]
    exact hf.hpch
  · rw [hsinkf]
    exact hf.hpsink
  · rw [hdirf]
    exact hf.hpdir
  · rw [hparf]
    exact hf.hppar
  · intro j hj
    rw [get_modify, if_neg (by omega)]
    exact hf.hch j hj

theorem frame_set_log (n : Nat) (b : Nat → String) (s : Sys) (pv : View)
    (L : List (Nat × String)) (hf : C1Frame n b s pv) :
    C1Frame n b { s with log := L } pv :=
  ⟨hf.len, hf.hp, hf.hpch, hf.hpsink, hf.hpdir, hf.hppar, hf.hch⟩

theorem frame_set_ticks (n : Nat) (b : Nat → String) (s : Sys) (pv : View)
    (T : List Nat) (hf : C1Frame n b s pv) :
    C1Frame n b { s with ticks := T } pv :=
  ⟨hf.len, hf.hp, hf.hpch, hf.hpsink, hf.hpdir, hf.hppar, hf.hch⟩

theorem c1_gate (n : Nat) (b : Nat → String) (s : Sys) (pv : View)
    (hf : C1Frame n b s pv) :
    canRender (s.modify 0 (fun w => { w with render_state := RS.requested })) 0 =
      (List.range n).all (fun j => isRendered s (j + 1)) := by
  have hmid : (s.modify 0 (fun w => { w with render_state := RS.requested })).get 0 =
      some { pv with render_state := RS.requested } := by
    rw [get_modify, if_pos rfl, hf.hp]
    rfl
  rw [c1_canRender n _ _ hmid hf.hpch]
  simp only [beq_self_eq_true, Bool.true_and]
  apply list_all_congr
  intro x _
  apply isRendered_congr
  rw [get_modify, if_neg (by omega)]

theorem allDone_congr (s₁ s₂ : Sys) (n : Nat)
    (h : ∀ i, i < n → isRendered s₁ (i + 1) = isRendered s₂ (i + 1)) :
    allDone s₁ n ↔ allDone s₂ n := by
  unfold allDone
  constructor <;> intro hh j hj
  · rw [← h j hj]
    exact hh j hj
  · rw [h j hj]
    exact hh j hj

/-- A render of the scenario parent whose gate holds: the parent
enters RENDER_STARTED and exactly one renderer invocation is logged. -/
theorem c1_render_go (n : Nat) (b : Nat → String) (s : Sys) (pv : View) (t : Option String)
    (hf : C1Frame n b s pv) (hcnc : pv.render_state ≠ RS.canceled)
    (hdone : allDone s n) :
    C1Frame n b (renderNF s 0 t) { pv with render_state := RS.started } ∧
    (renderNF s 0 t).ticks = s.ticks ∧
    (renderNF s 0 t).log = s.log ++
      [(0, pv.dir ++ optStr (if truthy pv.template then pv.template else t))] ∧
    (∀ i, i < n → isRendered (renderNF s 0 t) (i + 1) = isRendered s (i + 1)) := by
  have hgate : canRender
      (s.modify 0 (fun w => { w with render_state := RS.requested })) 0 = true := by
    rw [c1_gate n b s pv hf]
    exact (allDone_iff s n).mpr hdone
  have hgo := renderNF_go s 0 pv t hf.hp hcnc hgate
  have hframe : C1Frame n b
      (s.modify 0 (fun w => { w with render_state := RS.started }))
      { pv with render_state := RS.started } :=
    frame_modify_parent n b s pv hf _ rfl rfl rfl rfl
  refine ⟨?_, ?_, ?_, ?_⟩
  · rw [hgo]
    exact frame_set_log n b _ _ _ hframe
  · rw [hgo]
    show (s.modify 0 (fun w => { w with render_state := RS.started })).ticks = s.ticks
    exact modify_ticks ..
  · rw [hgo]
  · intro i hi
    rw [hgo]
    apply isRendered_congr
    show (s.modify 0 (fun w => { w with render_state := RS.started })).get (i + 1) = _
    rw [get_modify, if_neg (by omega)]

/-- A render of the scenario parent whose gate fails: the parent only
records RENDER_REQUESTED (and possibly the template); nothing is
rendered and nothing scheduled. -/
theorem c1_render_wait (n : Nat) (b : Nat → String) (s : Sys) (pv : View)
    (t : Option String) (hf : C1Frame n b s pv)
    (hcnc : pv.render_state ≠ RS.canceled) (hnd : ¬ allDone s n) :
    ∃ pv', C1Frame n b (renderNF s 0 t) pv' ∧ pv'.render_state = RS.requested ∧
      (renderNF s 0 t).ticks = s.ticks ∧ (renderNF s 0 t).log = s.log ∧
      (∀ i, i < n → isRendered (renderNF s 0 t) (i + 1) = isRendered s (i + 1)) := by
  have hgate : canRender
      (s.modify 0 (fun w => { w with render_state := RS.requested })) 0 = false := by
    rw [c1_gate n b s pv hf]
    cases hv : (List.range n).all (fun j => isRendered s (j + 1)) with
    | false => rfl
    | true => exact absurd ((allDone_iff s n).mp hv) hnd
  cases htm : truthy pv.template with
  | true =>
      have hk := renderNF_wait_keep s 0 pv t hf.hp hcnc hgate htm
      refine ⟨{ pv with render_state := RS.requested }, ?_, rfl, ?_, ?_, ?_⟩
      · rw [hk]
        exact frame_modify_parent n b s pv hf _ rfl rfl rfl rfl
      · rw [hk]
        exact modify_ticks ..
      · rw [hk]
        exact modify_log ..
      · intro i hi
        rw [hk]
        apply isRendered_congr
        rw [get_modify, if_neg (by omega)]
  | false =>
      have hk := renderNF_wait_set s 0 pv t hf.hp hcnc hgate htm
      refine ⟨{ pv with render_state := RS.requested, template := t }, ?_, rfl, ?_, ?_, ?_⟩
      · rw [hk]
        exact frame_modify_parent n b s pv hf _ rfl rfl rfl rfl
      · rw [hk]
        exact modify_ticks ..
      · rw [hk]
        exact modify_log ..
      · intro i hi
        rw [hk]
        apply isRendered_congr
        rw [get_modify, if_neg (by omega)]

/-- The effect of the fake-response end of child c on the scenario:
the child turns RENDER_COMPLETE, its buffer lands in the parent data,
and a parent render is scheduled exactly when the parent gate now
holds. -/
theorem c1_end_step (n : Nat) (b : Nat → String) (s : Sys) (pv : View) (c : Nat)
    (hf : C1Frame n b s pv) (hc1 : 1 ≤ c) (hc2 : c ≤ n) :
    ∃ s2, (fakeResponseEnd s c =
        if canRender s2 0 then { s2 with ticks := s2.ticks ++ [0] } else s2) ∧
      C1Frame n b s2 { pv with data := assocSet pv.data (Nat.repr c) (b c) } ∧
      s2.ticks = s.ticks ∧ s2.log = s.log ∧
      isRendered s2 c = true ∧
      (∀ i, i < n → i + 1 ≠ c → isRendered s2 (i + 1) = isRendered s (i + 1)) ∧
      canRender s2 0 = ((pv.render_state == RS.requested) &&
        (List.range n).all (fun j => isRendered s2 (j + 1))) := by
  obtain ⟨cv, hcv, hcvp, hcvch, hcvsink, hcvst⟩ := hf.hch (c - 1) (by omega)
  rw [show c - 1 + 1 = c from by omega] at hcv hcvsink
  refine ⟨setData (s.modify c (fun w => { w with render_state := RS.complete })) 0
    (Nat.repr c) (b c), ?_, ?_, ?_, ?_, ?_, ?_, ?_⟩
  case _ =>
    simp only [fakeResponseEnd, hcv, hcvsink, hcvp]
  all_goals
    have hs1get0 : (s.modify c
        (fun w => { w with render_state := RS.complete })).get 0 = s.get 0 := by
      rw [get_modify, if_neg (by omega)]
    have hs1getc : (s.modify c
        (fun w => { w with render_state := RS.complete })).get c =
        some { cv with render_state := RS.complete } := by
      rw [get_modify, if_pos rfl, hcv]
      rfl
    have hs2get0 : (setData (s.modify c (fun w => { w with render_state := RS.complete }))
        0 (Nat.repr c) (b c)).get 0 =
        some { pv with data := assocSet pv.data (Nat.repr c) (b c) } := by
      unfold setData
      rw [get_modify, if_pos rfl, hs1get0, hf.hp]
      rfl
    have hs2getc : (setData (s.modify c (fun w => { w with render_state := RS.complete }))
        0 (Nat.repr c) (b c)).get c =
        some { cv with render_state := RS.complete } := by
      unfold setData
      rw [get_modify, if_neg (by omega)]
      exact hs1getc
    have hs2get : ∀ i, i ≠ 0 → i ≠ c →
        (setData (s.modify c (fun w => { w with render_state := RS.complete }))
          0 (Nat.repr c) (b c)).get i = s.get i := by
      intro i h0 hcne
      unfold setData
      rw [get_modify, if_neg h0, get_modify, if_neg hcne]
  case _ =>
    refine ⟨?_, hs2get0, hf.hpch, hf.hpsink, hf.hpdir, hf.hppar, ?_⟩
    · unfold setData
      rw [modify_length, modify_length]
      exact hf.len
    · intro j hj
      by_cases hjc : j + 1 = c
      · refine ⟨{ cv with render_state := RS.complete }, ?_, hcvp, hcvch, ?_, Or.inl rfl⟩
        · rw [hjc]
          exact hs2getc
        · rw [hjc]
          exact hcvsink
      · obtain ⟨cw, hcw, h1, h2, h3, h4⟩ := hf.hch j hj
        exact ⟨cw, by rw [hs2get (j + 1) (by omega) hjc]; exact hcw, h1, h2, h3, h4⟩
  case _ =>
    unfold setData
    rw [modify_ticks, modify_ticks]
  case _ =>
    unfold setData
    rw [modify_log, modify_log]
  case _ =>
    unfold isRendered
    rw [hs2getc]
    rfl
  case _ =>
    intro i hi hic
    apply isRendered_congr
    exact hs2get (i + 1) (by omega) hic
  case _ =>
    exact c1_canRender n _ { pv with data := assocSet pv.data (Nat.repr c) (b c) }
      hs2get0 hf.hpch

/-- The trace invariant is preserved by every admissible event. -/
theorem c1Inv_step (n : Nat) (b : Nat → String) (s : Sys) (e : Ev) (evs : List Ev)
    (h : C1Inv n b s (e :: evs)) : C1Inv n b (step s e) evs := by
  obtain ⟨hok, hcnt, pv, hf, hphase⟩ := h
  have hokT : ∀ e₁ ∈ evs, evOk n e₁ = true :=
    fun e₁ he₁ => hok e₁ (List.mem_cons_of_mem e he₁)
  cases e with
  | tick =>
      have hcntT : ∀ i, i < n → evs.countP (isEndOf (i + 1)) =
          (if isRendered s (i + 1) then 0 else 1) := by
        intro i hi
        have hx := hcnt i hi
        rw [List.countP_cons] at hx
        simpa [isEndOf] using hx
      have hrT : (Ev.tick :: evs).countP isRenderEv = evs.countP isRenderEv := by
        rw [List.countP_cons]
        simp [isRenderEv]
      rcases hphase with ⟨hr, hst, hticks, hlog⟩ | ⟨hr, hst, hticks, hlog, hdone⟩ |
        ⟨hr, hst, hticks, hlog, hnd⟩ | ⟨hr, hst, hticks, hlog, hdone⟩
      · have hid : step s Ev.tick = s := by
          show runTick s = s
          unfold runTick
          rw [hticks]
        rw [hid]
        exact ⟨hokT, hcntT, pv, hf, Or.inl ⟨by rw [← hrT]; exact hr, hst, hticks, hlog⟩⟩
      · have hid : step s Ev.tick = s := by
          show runTick s = s
          unfold runTick
          rw [hticks]
        rw [hid]
        exact ⟨hokT, hcntT, pv, hf,
          Or.inr (Or.inl ⟨by rw [← hrT]; exact hr, hst, hticks, hlog, hdone⟩)⟩
      · have hid : step s Ev.tick = s := by
          show runTick s = s
          unfold runTick
          rw [hticks]
        rw [hid]
        exact ⟨hokT, hcntT, pv, hf,
          Or.inr (Or.inr (Or.inl ⟨by rw [← hrT]; exact hr, hst, hticks, hlog, hnd⟩))⟩
      · have hstep : step s Ev.tick = renderNF { s with ticks := [] } 0 none := by
          show runTick s = _
          unfold runTick
          rw [hticks]
        have hf' : C1Frame n b { s with ticks := [] } pv :=
          frame_set_ticks n b s pv [] hf
        have hcnc : pv.render_state ≠ RS.canceled := by
          rw [hst]
          simp
        obtain ⟨hfr, hticks2, hlog2, hpres⟩ :=
          c1_render_go n b { s with ticks := [] } pv none hf' hcnc hdone
        rw [hstep]
        refine ⟨hokT, ?_, { pv with render_state := RS.started }, hfr, ?_⟩
        · intro i hi
          rw [hpres i hi]
          exact hcntT i hi
        · refine Or.inr (Or.inl ⟨by rw [← hrT]; exact hr, rfl, ?_, ?_, ?_⟩)
          · exact hticks2
          · rw [hlog2, show ({ s with ticks := [] } : Sys).log = s.log from rfl, hlog]
            rfl
          · exact ((allDone_congr _ _ n hpres).mpr hdone : _)
  | prender t =>
      have hrHead : (Ev.prender t :: evs).countP isRenderEv =
          evs.countP isRenderEv + 1 := by
        rw [List.countP_cons]
        simp [isRenderEv]
      have hcntT : ∀ i, i < n → evs.countP (isEndOf (i + 1)) =
          (if isRendered s (i + 1) then 0 else 1) := by
        intro i hi
        have hx := hcnt i hi
        rw [List.countP_cons] at hx
        simpa [isEndOf] using hx
      rcases hphase with ⟨hr, hst, hticks, hlog⟩ | ⟨hr, _, _, _, _⟩ | ⟨hr, _, _, _, _⟩ |
        ⟨hr, _, _, _, _⟩
      · have hr0 : evs.countP isRenderEv = 0 := by
          rw [hrHead] at hr
          omega
        have hstep : step s (Ev.prender t) = renderNF s 0 t := rfl
        have hcnc : pv.render_state ≠ RS.canceled := by
          rw [hst]
          simp
        by_cases hdone : allDone s n
        · obtain ⟨hfr, hticks2, hlog2, hpres⟩ := c1_render_go n b s pv t hf hcnc hdone
          rw [hstep]
          refine ⟨hokT, ?_, { pv with render_state := RS.started }, hfr,
            Or.inr (Or.inl ⟨hr0, rfl, ?_, ?_, ?_⟩)⟩
          · intro i hi
            rw [hpres i hi]
            exact hcntT i hi
          · rw [hticks2]
            exact hticks
          · rw [hlog2, hlog]
            rfl
          · exact (allDone_congr _ _ n hpres).mpr hdone
        · obtain ⟨pv', hfr, hst', hticks2, hlog2, hpres⟩ :=
            c1_render_wait n b s pv t hf hcnc hdone
          rw [hstep]
          refine ⟨hokT, ?_, pv', hfr,
            Or.inr (Or.inr (Or.inl ⟨hr0, hst', ?_, ?_, ?_⟩))⟩
          · intro i hi
            rw [hpres i hi]
            exact hcntT i hi
          · rw [hticks2]
            exact hticks
          · rw [hlog2]
            exact hlog
          · exact fun hd => hdone ((allDone_congr _ _ n hpres).mp hd)
      · rw [hrHead] at hr
        exact absurd hr (by omega)
      · rw [hrHead] at hr
        exact absurd hr (by omega)
      · rw [hrHead] at hr
        exact absurd hr (by omega)
  | childEnd c =>
      have hcok := hok (Ev.childEnd c) (List.mem_cons_self _ _)
      have hcb : 1 ≤ c ∧ c ≤ n := by
        simpa [evOk] using hcok
      obtain ⟨s2, hstep, hfr2, hticks2, hlog2, hdonec, hpres, hgate⟩ :=
        c1_end_step n b s pv c hf hcb.1 hcb.2
      have hrT : (Ev.childEnd c :: evs).countP isRenderEv = evs.countP isRenderEv := by
        rw [List.countP_cons]
        simp [isRenderEv]
      have hcntc := hcnt (c - 1) (by omega)
      rw [show c - 1 + 1 = c from by omega, List.countP_cons] at hcntc
      have hEnd : isEndOf c (Ev.childEnd c) = true := by
        simp [isEndOf]
      rw [hEnd] at hcntc
      have hnotr : isRendered s c = false := by
        cases hh : isRendered s c
        · rfl
        · rw [hh] at hcntc
          simp at hcntc
      rw [hnotr] at hcntc
      have hcnt0 : evs.countP (isEndOf c) = 0 := by
        have e1 : (if true = true then 1 else 0) = 1 := rfl
        have e2 : (if false = true then 0 else 1) = 1 := rfl
        rw [e1, e2] at hcntc
        omega
      have hcntNew : ∀ i, i < n → evs.countP (isEndOf (i + 1)) =
          (if isRendered s2 (i + 1) then 0 else 1) := by
        intro i hi
        by_cases hic : i + 1 = c
        · rw [hic, hdonec]
          show evs.countP (isEndOf c) = 0
          exact hcnt0
        · have hx := hcnt i hi
          rw [List.countP_cons] at hx
          have hne : isEndOf (i + 1) (Ev.childEnd c) = false := by
            simp [isEndOf]
            omega
          rw [hne] at hx
          simp at hx
          rw [hpres i hi hic]
          exact hx
      rcases hphase with ⟨hr, hst, hticks, hlog⟩ | ⟨hr, hst, hticks, hlog, hdone⟩ |
        ⟨hr, hst, hticks, hlog, hnd⟩ | ⟨hr, hst, hticks, hlog, hdone⟩
      · have hg : canRender s2 0 = false := by
          rw [hgate, hst]
          rfl
        have hres : step s (Ev.childEnd c) = s2 := by
          show fakeResponseEnd s c = s2
          rw [hstep, hg]
          simp
        rw [hres]
        refine ⟨hokT, hcntNew, _, hfr2, Or.inl ⟨by rw [← hrT]; exact hr, hst, ?_, ?_⟩⟩
        · rw [hticks2]
          exact hticks
        · rw [hlog2]
          exact hlog
      · have hcontra := hdone (c - 1) (by omega)
        rw [show c - 1 + 1 = c from by omega, hnotr] at hcontra
        cases hcontra
      · cases hall : (List.range n).all (fun j => isRendered s2 (j + 1)) with
        | true =>
            have hg : canRender s2 0 = true := by
              rw [hgate, hst, hall]
              rfl
            have hres : step s (Ev.childEnd c) =
                { s2 with ticks := s2.ticks ++ [0] } := by
              show fakeResponseEnd s c = _
              rw [hstep, hg]
              simp
            rw [hres]
            refine ⟨hokT, hcntNew, _, frame_set_ticks n b s2 _ _ hfr2,
              Or.inr (Or.inr (Or.inr ⟨by rw [← hrT]; exact hr, hst, ?_, ?_, ?_⟩))⟩
            · show s2.ticks ++ [0] = [0]
              rw [hticks2, hticks]
              rfl
            · show s2.log = []
              rw [hlog2]
              exact hlog
            · exact ((allDone_iff s2 n).mp hall : _)
        | false =>
            have hg : canRender s2 0 = false := by
              rw [hgate, hst, hall]
              rfl
            have hres : step s (Ev.childEnd c) = s2 := by
              show fakeResponseEnd s c = s2
              rw [hstep, hg]
              simp
            rw [hres]
            refine ⟨hokT, hcntNew, _, hfr2,
              Or.inr (Or.inr (Or.inl ⟨by rw [← hrT]; exact hr, hst, ?_, ?_, ?_⟩))⟩
            · rw [hticks2]
              exact hticks
            · rw [hlog2]
              exact hlog
            · intro hd
              rw [(allDone_iff s2 n).mpr hd] at hall
              cases hall
      · have hcontra := hdone (c - 1) (by omega)
        rw [show c - 1 + 1 = c from by omega, hnotr] at hcontra
        cases hcontra

/-- Running a prefix of an admissible trace keeps the invariant, with
the rest of the trace as the remaining events. -/
theorem c1Inv_run (n : Nat) (b : Nat → String) :
    ∀ (p : List Ev) (s : Sys) (evs : List Ev),
      C1Inv n b s (p ++ evs) → C1Inv n b (runEvs s p) evs := by
  intro p
  induction p with
  | nil =>
      intro s evs h
      exact h
  | cons e p' ih =>
      intro s evs h
      exact ih (step s e) evs (c1Inv_step n b s e (p' ++ evs) h)

theorem c1Init_get_parent (n : Nat) (b : Nat → String) :
    (c1Init n b).get 0 = some (c1Parent n) := by
  show (c1Parent n ::
    (List.range n).map (fun j => c1Child (j + 1) (b (j + 1))))[0]? = _
  rw [List.getElem?_cons_zero]

theorem c1Init_get_child (n : Nat) (b : Nat → String) (j : Nat) (hj : j < n) :
    (c1Init n b).get (j + 1) = some (c1Child (j + 1) (b (j + 1))) := by
  show (c1Parent n ::
    (List.range n).map (fun j => c1Child (j + 1) (b (j + 1))))[j + 1]? = _
  rw [List.getElem?_cons_succ, List.getElem?_map, List.getElem?_range hj]
  rfl

/-- The invariant holds initially for any admissible trace. -/
theorem c1Inv_init (n : Nat) (b : Nat → String) (evs : List Ev)
    (h1 : ∀ i, i < n → evs.countP (isEndOf (i + 1)) = 1)
    (h2 : ∀ e ∈ evs, evOk n e = true)
    (h3 : evs.countP isRenderEv = 1) :
    C1Inv n b (c1Init n b) evs := by
  refine ⟨h2, ?_, c1Parent n, ?_, Or.inl ⟨h3, rfl, rfl, rfl⟩⟩
  · intro i hi
    have hr : isRendered (c1Init n b) (i + 1) = false := by
      unfold isRendered
      rw [c1Init_get_child n b i hi]
      rfl
    rw [hr]
    exact h1 i hi
  · refine ⟨?_, c1Init_get_parent n b, rfl, rfl, rfl, rfl, ?_⟩
    · show (c1Parent n ::
        (List.range n).map (fun j => c1Child (j + 1) (b (j + 1)))).length = n + 1
      simp
    · intro j hj
      exact ⟨c1Child (j + 1) (b (j + 1)), c1Init_get_child n b j hj, rfl, rfl, rfl,
        Or.inr rfl⟩

/-- What the invariant says about the renderer log at any point. -/
theorem c1Inv_log (n : Nat) (b : Nat → String) (s : Sys) (evs : List Ev)
    (h : C1Inv n b s evs) :
    s.log.length ≤ 1 ∧ (∀ e ∈ s.log, e.1 = 0) ∧ (s.log ≠ [] → allDone s n) := by
  obtain ⟨_, _, pv, _, hphase⟩ := h
  rcases hphase with ⟨_, _, _, hlog⟩ | ⟨_, _, _, hlog, hdone⟩ | ⟨_, _, _, hlog, _⟩ |
    ⟨_, _, _, hlog, _⟩
  · rw [hlog]
    exact ⟨by simp, by simp, fun hh => absurd rfl hh⟩
  · have hlen : s.log.length = 1 := by
      have := congrArg List.length hlog
      rwa [List.length_map] at this
    refine ⟨by omega, ?_, fun _ => hdone⟩
    intro e he
    have hmem : e.1 ∈ s.log.map Prod.fst := List.mem_map_of_mem Prod.fst he
    rw [hlog] at hmem
    simpa using hmem
  · rw [hlog]
    exact ⟨by simp, by simp, fun hh => absurd rfl hh⟩
  · rw [hlog]
    exact ⟨by simp, by simp, fun hh => absurd rfl hh⟩

/-- At the end of a complete admissible trace (all events consumed, no
scheduled render still pending), the renderer log holds exactly one
entry, for the parent. -/
theorem c1Inv_final (n : Nat) (b : Nat → String) (s : Sys)
    (h : C1Inv n b s []) (ht : s.ticks = []) :
    s.log.map Prod.fst = [0] := by
  obtain ⟨_, hcnt, pv, hf, hphase⟩ := h
  rcases hphase with ⟨hr, _, _, _⟩ | ⟨_, _, _, hlog, _⟩ | ⟨_, _, _, _, hnd⟩ |
    ⟨_, _, hticks, _, _⟩
  · simp at hr
  · exact hlog
  · exfalso
    apply hnd
    intro j hj
    have hx := hcnt j hj
    simp only [List.countP_nil] at hx
    cases hh : isRendered s (j + 1)
    · rw [hh] at hx
      simp at hx
    · rfl
  · rw [ht] at hticks
    simp at hticks

/-- C1: in the ordering scenario (a parent with n in-flight children),
for every interleaving of the n child fake-response end events (each
exactly once), the single parent render call, and next-tick executions:
the renderer log only ever holds entries for the parent, never more
than one; whenever it is non-empty every child is RENDER_COMPLETE; and
once the trace is consumed with no scheduled render pending, the
parent renderer has been invoked exactly once. -/
theorem claim_C1 (n : Nat) (b : Nat → String) (evs : List Ev)
    (h1 : ∀ i, i < n → evs.countP (isEndOf (i + 1)) = 1)
    (h2 : ∀ e ∈ evs, evOk n e = true)
    (h3 : evs.countP isRenderEv = 1) :
    ((runEvs (c1Init n b) evs).ticks = [] →
      (runEvs (c1Init n b) evs).log.map Prod.fst = [0]) ∧
    (∀ p q, evs = p ++ q →
      (runEvs (c1Init n b) p).log.length ≤ 1 ∧
      (∀ e ∈ (runEvs (c1Init n b) p).log, e.1 = 0) ∧
      ((runEvs (c1Init n b) p).log ≠ [] →
        ∀ j, j < n → isRendered (runEvs (c1Init n b) p) (j + 1) = true)) := by
  have hinit := c1Inv_init n b evs h1 h2 h3
  constructor
  · intro ht
    have hfin : C1Inv n b (runEvs (c1Init n b) evs) [] := by
      apply c1Inv_run n b evs (c1Init n b) []
      rwa [List.append_nil]
    exact c1Inv_final n b _ hfin ht
  · intro p q hpq
    have hinv : C1Inv n b (c1Init n b) (p ++ q) := by
      rwa [hpq] at hinit
    have hrun := c1Inv_run n b p (c1Init n b) q hinv
    have hlog := c1Inv_log n b _ q hrun
    exact ⟨hlog.1, hlog.2.1, fun hne => hlog.2.2 hne⟩

/-- Witness for C1: one child, render requested first, end fires, one
tick runs the deferred parent render. -/
theorem claim_C1_witness :
    ((runEvs (c1Init 1 (fun _ => "x"))
        [Ev.prender (some "t"), Ev.childEnd 1, Ev.tick]).ticks = [] →
      (runEvs (c1Init 1 (fun _ => "x"))
        [Ev.prender (some "t"), Ev.childEnd 1, Ev.tick]).log.map Prod.fst = [0]) ∧
    (∀ p q, [Ev.prender (some "t"), Ev.childEnd 1, Ev.tick] = p ++ q →
      (runEvs (c1Init 1 (fun _ => "x")) p).log.length ≤ 1 ∧
      (∀ e ∈ (runEvs (c1Init 1 (fun _ => "x")) p).log, e.1 = 0) ∧
      ((runEvs (c1Init 1 (fun _ => "x")) p).log ≠ [] →
        ∀ j, j < 1 → isRendered (runEvs (c1Init 1 (fun _ => "x")) p) (j + 1) = true)) :=
  claim_C1 1 (fun _ => "x") [Ev.prender (some "t"), Ev.childEnd 1, Ev.tick]
    (by decide) (by decide) (by decide)

end Bifocals
